import Mathlib

/-!
# OTRadioLink secure frame codec: a shallow embedding

This file embeds the secureable-frame codec of the OTRadioLink library
(header encode/decode with the Quick Integrity Checks, the non-secure
CRC-trailer frame codec, the fixed 32-or-0-byte-body secure frame codec,
and the message-counter / replay-guard logic) as executable Lean
definitions, and proves the stated properties of the codec against them.

Modelling conventions:
* byte buffers are `List Nat` whose elements are byte values; reads through
  a pointer `p + i` become `List.getD`/`List.drop`/`List.take`;
* `uint8_t` arithmetic is `Nat` arithmetic with an explicit `% 256` at each
  point where the C source truncates to 8 bits (`int` intermediates in C do
  not truncate, so in-range `Nat` subtraction is used where the C `int`
  value is provably non-negative, and an `Int`-valued computation with
  `emod 256` where the C value can go negative before truncation);
* `NULL`-able pointers become `Option`; out-parameters become components of
  the result tuple; the mutated `this` object of a member function is
  threaded explicitly (initial state in, final state out);
* the caller-supplied scratch-space plumbing (a stack-budget mechanism:
  sizes are checked and sub-ranges carved for callees) carries no data that
  the codec logic reads, and is not represented;
* the pluggable AES-GCM primitive is an explicit function argument, as in
  the source; the source's NULL (identity) implementation pair is embedded.
-/

set_option maxRecDepth 4000

namespace OTRadioLink

/-- Frame type codes from `FrameType_Secureable` (7-bit values). -/
def FTS_NONE : Nat := 0

/-- Reserved invalid-high frame type bound (0x7f). -/
def FTS_INVALID_HIGH : Nat := 0x7f

/-- "Alive" beacon frame type ('!'). -/
def FTS_ALIVE : Nat := 0x21

/-- Basic sensor/valve frame type ('O'). -/
def FTS_BasicSensorOrValve : Nat := 0x4f

/-- Maximum (small) frame size excluding the length byte. -/
def maxSmallFrameSize : Nat := 63

/-- Maximum ID length in bytes for small frames. -/
def maxIDLength : Nat := 8

/-- Maximum unpadded plaintext body size for the 32-byte fixed scheme. -/
def ENC_BODY_SMALL_FIXED_PTEXT_MAX_SIZE : Nat := 31

/-- Fixed padded/encrypted body size for the 32-byte fixed scheme. -/
def ENC_BODY_SMALL_FIXED_CTEXT_SIZE : Nat := 32

/-- Size in bytes of the full message counter. -/
def fullMsgCtrBytes : Nat := 6

/-- Size in bytes of a full OpenTRV node ID. -/
def OpenTRV_Node_ID_Bytes : Nat := 8

/-- Logical header for the secureable frame format
(`struct SecurableFrameHeader`).  `id` holds the bytes of the embedded
ID; only its first `getIl` bytes are meaningful, mirroring the partially
initialised 8-byte array of the source. -/
structure SecurableFrameHeader where
  fl : Nat
  fType : Nat
  seqIl : Nat
  id : List Nat
  bl : Nat
  deriving Repr, DecidableEq

namespace SecurableFrameHeader

/-- The default constructor: invalid frame length and invalid ID
(`SecurableFrameHeader() : fl(0) { id[0] = 0xff; }`); the remaining
fields are uninitialised in the source and are modelled as zero. -/
def init : SecurableFrameHeader := ⟨0, 0, 0, [0xff], 0⟩

/-- `isInvalid`: the header is invalid while `fl == 0`. -/
def isInvalid (h : SecurableFrameHeader) : Prop := h.fl = 0

instance (h : SecurableFrameHeader) : Decidable h.isInvalid := by
  unfold isInvalid; infer_instance

/-- `isSecure`: top bit of the type byte set. -/
def isSecure (h : SecurableFrameHeader) : Prop := 0x80 &&& h.fType ≠ 0

instance (h : SecurableFrameHeader) : Decidable h.isSecure := by
  unfold isSecure; infer_instance

/-- Frame sequence number mod 16: bits 4–7 of `seqIl`. -/
def getSeq (h : SecurableFrameHeader) : Nat := (h.seqIl >>> 4) &&& 0xf

/-- ID length: bits 0–3 of `seqIl`. -/
def getIl (h : SecurableFrameHeader) : Nat := h.seqIl &&& 0xf

/-- Modelled from the spec: header length including the leading length
byte, `4 + il` (spec §4.1: "Header length `4 + idLen`"); the current
`OTRadioLink_SecureableFrameType.h` declaring `getHl` is not among the
provided sources. -/
def getHl (h : SecurableFrameHeader) : Nat := 4 + h.getIl

/-- Modelled from the spec: offset of the body within the frame buffer
whose byte 0 is the frame-length byte.  The current header file defining
`getBodyOffset` is not among the provided sources; the value is pinned by
the spec's concrete vectors and the unit tests in
`portableUnitTests/OTRadioLink/SecureFrameTest.cpp` (`EXPECT_EQ(6,
sfh.getBodyOffset())` for a 2-byte ID), giving `getHl = 4 + il` —
equivalently the spec §3 value `3 + idLength` counted from the byte after
the length byte. -/
def getBodyOffset (h : SecurableFrameHeader) : Nat := h.getHl

/-- Trailer length `fl - 3 - il - bl`, computed as in the source in `int`
arithmetic and then truncated to `uint8_t` (so a nonsense header with
`3 + il + bl > fl` wraps modulo 256 rather than clamping at zero). -/
def getTl (h : SecurableFrameHeader) : Nat :=
  (((h.fl : Int) - 3 - (h.getIl : Int) - (h.bl : Int)) % 256).toNat

/-- Modelled from the spec: offset of the trailer within the frame buffer
whose byte 0 is the frame-length byte (current header file absent, value
pinned by the spec's concrete vectors and the unit tests:
`EXPECT_EQ(8, sfh.getTrailerOffset())` for a 2-byte ID and 2-byte body),
truncated to `uint8_t`. -/
def getTrailerOffset (h : SecurableFrameHeader) : Nat := (h.getHl + h.bl) % 256

end SecurableFrameHeader

/-- Modelled from the spec: `OTV0P2BASE::crc7_5B_update`, the 7-bit
CRC update step used for the non-secure frame trailer ("CRC-7/5B" with
seed 0x7F, spec §4.2/§6); its implementation file `OTV0P2BASE_CRC.cpp`
is not among the provided sources.  Bit-serial, MSB first: the feedback
bit is bit 6 of the CRC xor the incoming data bit, the register shifts
left, and `0x37` (polynomial 0x5B in normal form) is xored in on
feedback; the result is masked to 7 bits.  This reconstruction is pinned
by the spec's concrete vectors (CRCs 0x23 and 0x61 of the two example
frames, checked below). -/
def crc7_5B_update (crc datum : Nat) : Nat :=
  let step := fun (c : Nat) (i : Nat) =>
    let bit := (c &&& 0x40 != 0) != (datum &&& i != 0)
    let c2 := (c <<< 1) % 256
    if bit then c2 ^^^ 0x37 else c2
  ([0x80, 0x40, 0x20, 0x10, 0x08, 0x04, 0x02, 0x01].foldl step crc) &&& 0x7f

/-- `SecurableFrameHeader::encodeHeader`.  Validates the parameters
(Quick Integrity Checks), updating the header fields as it goes, and on
success produces the encoded header bytes
`[fl, type, seqIl, id…, bl]` and returns the header length including the
length byte; any failure leaves `fl = 0` and returns 0 bytes written.
`buflen` is the destination buffer capacity; `id_ = none` models a NULL
ID pointer (the EEPROM-sourced ID path, which on non-AVR builds fails).
Result: (final header state, bytes written, return value). -/
def encodeHeader (h0 : SecurableFrameHeader) (buflen : Nat) (secure_ : Bool)
    (fType_ : Nat) (seqNum_ : Nat) (id_ : Option (List Nat))
    (il_ : Nat) (bl_ : Nat) (tl_ : Nat) :
    SecurableFrameHeader × List Nat × Nat :=
  let h := { h0 with fl := 0 }
  if fType_ = FTS_NONE ∨ FTS_INVALID_HIGH ≤ fType_ then (h, [], 0) else
  let h := { h with fType := if secure_ then (0x80 ||| fType_) % 256 else 0x7f &&& fType_ }
  if maxIDLength < il_ then (h, [], 0) else
  let h := { h with seqIl := (il_ ||| (seqNum_ <<< 4)) % 256 }
  if 0 < il_ ∧ id_ = none then (h, [], 0) else
  let h := { h with id := if 0 < il_ then (id_.getD []).take il_ else h.id }
  let hlifl := 4 + il_
  if buflen < hlifl then (h, [], 0) else
  if maxSmallFrameSize - hlifl < bl_ then (h, [], 0) else
  let h := { h with bl := bl_ }
  if (¬ secure_ ∧ tl_ ≠ 1) ∨ (secure_ ∧ (tl_ = 0 ∨ maxSmallFrameSize + 1 - hlifl - bl_ < tl_))
    then (h, [], 0) else
  let fl_ := hlifl - 1 + bl_ + tl_
  let bytes := [fl_, h.fType, h.seqIl] ++ h.id.take il_ ++ [bl_]
  ({ h with fl := fl_ }, bytes, hlifl)

/-- `SecurableFrameHeader::decodeHeader`.  Performs the Quick Integrity
Checks against the buffer `buf` (of caller-declared length `buflen`),
filling header fields as it goes; on success sets `fl` as the last
action and returns the header length including the length byte, else
leaves `fl = 0` and returns 0.  (The NULL-buffer guard of the source is
not representable for a `List` and is dropped.)
Result: (final header state, return value). -/
def decodeHeader (h0 : SecurableFrameHeader) (buf : List Nat) (buflen : Nat) :
    SecurableFrameHeader × Nat :=
  let h := { h0 with fl := 0 }
  if buflen < 5 then (h, 0) else
  let fl_ := buf.getD 0 0
  if fl_ < 4 then (h, 0) else
  if maxSmallFrameSize < fl_ then (h, 0) else
  let h := { h with fType := buf.getD 1 0 }
  let fType_ := h.fType &&& 0x7f
  if fType_ = FTS_NONE ∨ FTS_INVALID_HIGH ≤ fType_ then (h, 0) else
  let h := { h with seqIl := buf.getD 2 0 }
  let il_ := h.getIl
  if maxIDLength < il_ then (h, 0) else
  if fl_ - 4 < il_ then (h, 0) else
  let hlifl := 4 + il_
  if buflen < hlifl then (h, 0) else
  let h := { h with id := if 0 < il_ then (buf.drop 3).take il_ else h.id }
  let bl_ := buf.getD (hlifl - 1) 0
  if fl_ - hlifl < bl_ then (h, 0) else
  let h := { h with bl := bl_ }
  if fl_ < buflen ∧ (buf.getD fl_ 0 = 0x00 ∨ buf.getD fl_ 0 = 0xff) then (h, 0) else
  let tl_ := fl_ - 3 - il_ - bl_
  if (¬ h.isSecure ∧ tl_ ≠ 1) ∨ (h.isSecure ∧ tl_ = 0) then (h, 0) else
  ({ h with fl := fl_ }, hlifl)

/-- `SecurableFrameHeader::computeNonSecureCRC`: 7-bit CRC seeded 0x7F
over the first `fl` bytes of the frame, with a zero result mapped to
0x80; 0 signals an error (invalid header or undersized buffer). -/
def computeNonSecureCRC (h : SecurableFrameHeader) (buf : List Nat) (buflen : Nat) : Nat :=
  if h.isInvalid then 0
  else if buflen < h.fl then 0
  else
    let crc := (buf.take h.fl).foldl crc7_5B_update 0x7f
    if crc = 0 then 0x80 else crc

/-- `encodeNonsecure`: compose an entire non-secure small frame from the
header parameters, the body `ptext` (whose length plays the role of
`fd.ptextbufSize`) and the 1-byte CRC trailer.  The body is copied in at
the body offset (immediately after the encoded header) and the CRC is
written at index `fl`.
Result: (final header state, buffer content written, return value). -/
def encodeNonsecure (h0 : SecurableFrameHeader) (outbufSize : Nat)
    (ptext : List Nat) (fType : Nat) (seqNum : Nat)
    (id_ : Option (List Nat)) (il : Nat) :
    SecurableFrameHeader × List Nat × Nat :=
  let r := encodeHeader h0 outbufSize false fType seqNum id_ il ptext.length 1
  let h := r.1
  let hdrBytes := r.2.1
  if r.2.2 = 0 then (h, hdrBytes, 0) else
  if outbufSize ≤ h.fl then (h, hdrBytes, 0) else
  let withBody := hdrBytes ++ ptext
  let crc := computeNonSecureCRC h withBody outbufSize
  (h, withBody ++ [crc], h.fl + 1)

/-- `decodeNonsecure`: validate a whole non-secure frame against an
already-decoded header; recomputes the CRC over the first `fl` bytes and
compares it with the trailer byte.  `ctextLen` is the caller-supplied
buffer length field. -/
def decodeNonsecure (h : SecurableFrameHeader) (ctext : Option (List Nat))
    (ctextLen : Nat) : Nat :=
  match ctext with
  | none => 0
  | some buf =>
    if h.isInvalid then 0 else
    if h.getTl ≠ 1 then 0 else
    let crc := computeNonSecureCRC h buf ctextLen
    if crc = 0 then 0 else
    if buf.getD h.fl 0 ≠ crc then 0 else
    h.fl + 1

/-- `SimpleSecureFrame32or0BodyTXBase::pad32BBuffer`: pad the plaintext
in place to exactly 32 bytes; the final byte holds the count of zero
padding bytes, the gap is zero-filled.  Fails (0) on a NULL buffer or
more than 31 data bytes.  Result: (new buffer content, return value). -/
def pad32BBuffer (buf : Option (List Nat)) (datalen : Nat) :
    Option (List Nat) × Nat :=
  match buf with
  | none => (none, 0)
  | some b =>
    if ENC_BODY_SMALL_FIXED_PTEXT_MAX_SIZE < datalen then (some b, 0) else
    let paddingZeros := ENC_BODY_SMALL_FIXED_CTEXT_SIZE - 1 - datalen
    (some (b.take datalen ++ List.replicate paddingZeros 0 ++ [paddingZeros]),
     ENC_BODY_SMALL_FIXED_CTEXT_SIZE)

/-- `SimpleSecureFrame32or0BodyRXBase::unpad32BBuffer`: read the final
byte of the 32-byte buffer as the padding count; 0 on a count above 31,
else `31 - count`.  (The padding bytes themselves are never checked.) -/
def unpad32BBuffer (buf : List Nat) : Nat :=
  let paddingZeros := buf.getD (ENC_BODY_SMALL_FIXED_CTEXT_SIZE - 1) 0
  if 31 < paddingZeros then 0
  else ENC_BODY_SMALL_FIXED_CTEXT_SIZE - 1 - paddingZeros

/-- Shape of a `fixed32BTextSize12BNonce16BTagSimpleEnc_fn_t` encryption
function: key, 12-byte IV, authenticated data, optional 32-byte
plaintext; produces the 32 bytes written to the ciphertext output
and the 16 bytes written to the tag output, or `none` on failure. -/
abbrev EncFn :=
  List Nat → List Nat → List Nat → Option (List Nat) → Option (List Nat × List Nat)

/-- Shape of a `fixed32BTextSize12BNonce16BTagSimpleDec_fn_t` decryption
function: key, IV, authenticated data, optional 32-byte ciphertext and
16-byte tag; produces the 32 bytes written to the plaintext output
buffer (unwritten, hence `[]`, for a NULL ciphertext), or `none` on
authentication failure. -/
abbrev DecFn :=
  List Nat → List Nat → List Nat → Option (List Nat) → List Nat → Option (List Nat)

/-- `fixed32BTextSize12BNonce16BTagSimpleEnc_NULL_IMPL`: copies the
plaintext (if any) to the ciphertext and the nonce, zero-padded, to the
tag; ignores the key.  The source's non-NULL pointer checks on
workspace/key/iv/authtext/outputs always pass in this embedding. -/
def fixed32BTextSize12BNonce16BTagSimpleEnc_NULL_IMPL : EncFn :=
  fun _key iv _authtext plaintext =>
    some ((match plaintext with | some p => p.take 32 | none => []),
      iv.take 12 ++ List.replicate 4 0)

/-- `fixed32BTextSize12BNonce16BTagSimpleDec_NULL_IMPL`: checks that the
first and last tag bytes look as built by the NULL encryption, then
copies the ciphertext (if any) to the plaintext output. -/
def fixed32BTextSize12BNonce16BTagSimpleDec_NULL_IMPL : DecFn :=
  fun _key iv _authtext ciphertext tag =>
    if tag.getD 0 0 ≠ iv.getD 0 0 ∨ tag.getD 15 0 ≠ 0 then none
    else some (match ciphertext with | some c => c.take 32 | none => [])

/-- `SimpleSecureFrame32or0BodyTXBase::encodeRaw`: encode an entire
secure small frame given the IV.  Derives the header sequence number
from `iv[11]`, encodes the header with a 23-byte trailer, pads the body
in place, invokes the encryption function over the header bytes as
authenticated data, then writes counter (IV bytes 6–11), tag and the
0x80 format byte as the trailer.  `ptextLen` is `fd.ptextLen`.
Result: (final header state, buffer content written, return value). -/
def encodeRaw (h0 : SecurableFrameHeader) (fType : Nat) (outbufSize : Nat)
    (ptext : Option (List Nat)) (ptextLen : Nat)
    (id_ : Option (List Nat)) (il_ : Nat) (iv : List Nat)
    (e : EncFn) (key : Option (List Nat)) :
    SecurableFrameHeader × List Nat × Nat :=
  match key with
  | none => (h0, [], 0)
  | some key =>
    let bodylen := ptextLen
    if ENC_BODY_SMALL_FIXED_PTEXT_MAX_SIZE < bodylen then (h0, [], 0) else
    let encryptedBodyLength := if bodylen = 0 then 0 else ENC_BODY_SMALL_FIXED_CTEXT_SIZE
    let seqNum_ := iv.getD 11 0 &&& 0xf
    let r := encodeHeader h0 outbufSize true fType seqNum_ id_ il_ encryptedBodyLength 23
    let h := r.1
    let hdrBytes := r.2.1
    if r.2.2 = 0 then (h, hdrBytes, 0) else
    if outbufSize ≤ h.fl then (h, hdrBytes, 0) else
    let padr := if bodylen ≠ 0 then pad32BBuffer ptext bodylen else (ptext, 32)
    if bodylen ≠ 0 ∧ padr.2 = 0 then (h, hdrBytes, 0) else
    match e key iv hdrBytes (if bodylen = 0 then none else padr.1) with
    | none => (h, hdrBytes, 0)
    | some (ct, tag) =>
      let frame := hdrBytes ++ (if bodylen = 0 then [] else ct)
          ++ (iv.drop 6).take 6 ++ tag ++ [0x80]
      (h, frame, h.fl + 1)

/-- Outputs of a secure-frame decode: the return value, and the
`fd.ptextLen` / `fd.ptext` data produced on success (both zero/empty
whenever they are not written). -/
structure OTDecodeResult where
  ret : Nat
  ptextLen : Nat
  ptext : List Nat
  deriving Repr, DecidableEq

/-- `SimpleSecureFrame32or0BodyRXBase::decodeRaw`: decode/authenticate
an entire secure small frame, given a pre-decoded header and the IV.
`ptextPresent` models `NULL != fd.ptext` and `ptextLenMax` is
`fd.ptextLenMax`.  The frame buffer length is taken from its leading
length byte (`buflen = buf[0] + 1`, as `uint8_t`). -/
def decodeRaw (sfh : SecurableFrameHeader) (ctext : Option (List Nat))
    (ptextPresent : Bool) (ptextLenMax : Nat)
    (d : DecFn) (key : Option (List Nat)) (iv : Option (List Nat)) :
    OTDecodeResult :=
  match ctext, key, iv with
  | some buf, some key, some iv =>
    let buflen := (buf.getD 0 0 + 1) % 256
    if sfh.isInvalid then ⟨0, 0, []⟩ else
    let fl := sfh.fl
    if buflen ≤ fl then ⟨0, 0, []⟩ else
    if sfh.getTl ≠ 23 then ⟨0, 0, []⟩ else
    if buf.getD fl 0 ≠ 0x80 then ⟨0, 0, []⟩ else
    let bl := sfh.bl
    if bl ≠ 0 ∧ bl ≠ ENC_BODY_SMALL_FIXED_CTEXT_SIZE then ⟨0, 0, []⟩ else
    if sfh.getSeq ≠ (iv.getD 11 0 &&& 0xf) then ⟨0, 0, []⟩ else
    match d key iv (buf.take sfh.getHl)
        (if bl = 0 then none
         else some ((buf.drop sfh.getBodyOffset).take ENC_BODY_SMALL_FIXED_CTEXT_SIZE))
        ((buf.drop (fl - 16)).take 16) with
    | none => ⟨0, 0, []⟩
    | some decryptBuf =>
      if ptextPresent ∧ bl ≠ 0 then
        let upbl := unpad32BBuffer decryptBuf
        if ENC_BODY_SMALL_FIXED_PTEXT_MAX_SIZE < upbl then ⟨0, 0, []⟩ else
        if ptextLenMax < upbl then ⟨0, 0, []⟩ else
        ⟨fl + 1, upbl, decryptBuf.take upbl⟩
      else ⟨fl + 1, 0, []⟩
  | _, _, _ => ⟨0, 0, []⟩

/-- Big-endian numeric value of a byte string. -/
def counterValue (c : List Nat) : Nat := c.foldl (fun acc b => acc * 256 + b) 0

/-- Modelled from the spec:
`SimpleSecureFrame32or0BodyRXBase::msgcountercmp`, whose implementation
file is not among the provided sources — "lexicographic big-endian
6-byte unsigned comparison" (spec §4.4), consistent with big-endian
numeric value (spec §8), returning negative/zero/positive. -/
def msgcountercmp (a b : List Nat) : Int :=
  if counterValue (a.take fullMsgCtrBytes) < counterValue (b.take fullMsgCtrBytes) then -1
  else if counterValue (a.take fullMsgCtrBytes) = counterValue (b.take fullMsgCtrBytes) then 0
  else 1

/-- Carry-ripple loop of `msgcounteradd`:
`for(int8_t i = fullMsgCtrBytes-1; --i > 0; ) { if(0 != ++counter[i]) break; }`
— increments byte `i`, stopping on a non-zero result, and stops in any
case before reaching byte 0. -/
def msgcounterripple (c : List Nat) : Nat → List Nat
  | 0 => c
  | i + 1 =>
    let v := (c.getD (i + 1) 0 + 1) % 256
    let c2 := c.set (i + 1) v
    if v ≠ 0 then c2 else msgcounterripple c2 i

/-- `SimpleSecureFrame32or0BodyRXBase::msgcounteradd`: add `delta`
(0–255) to the 6-byte big-endian counter in place; refuses (false,
counter unchanged) if the counter would roll over past all-0xFF.
Result: (return value, final counter content). -/
def msgcounteradd (counter : List Nat) (delta : Nat) : Bool × List Nat :=
  if delta = 0 then (true, counter) else
  let lsbyte := counter.getD (fullMsgCtrBytes - 1) 0
  let bumped := (lsbyte + delta) % 256
  if lsbyte < bumped then (true, counter.set (fullMsgCtrBytes - 1) bumped) else
  let allFF := (List.range (fullMsgCtrBytes - 1)).all (fun i => counter.getD i 0 == 0xff)
  if allFF then (false, counter) else
  (true, msgcounterripple (counter.set (fullMsgCtrBytes - 1) bumped) (fullMsgCtrBytes - 2))

/-- An RX node-association table: full node IDs with their last-accepted
message counters.  Modelled from the spec (§6: an external persistent
store "keyed by full node ID", supporting prefix-match lookup and
get/compare-and-set of the 6-byte last-seen counter). -/
abbrev NodeAssocTable := List (List Nat × List Nat)

/-- Does `p` match the leading bytes of `nid`? -/
def idPrefixMatches : List Nat → List Nat → Bool
  | [], _ => true
  | _ :: _, [] => false
  | a :: as, b :: bs => a == b && idPrefixMatches as bs

/-- Modelled from the spec:
`SimpleSecureFrame32or0BodyRXBase::_getNextMatchingNodeID` (association
table lookup, implementation external to the provided sources) — find
the first table entry at or after `index` whose full ID extends the
given ID prefix, returning its index and full node ID. -/
def getNextMatchingNodeID (store : NodeAssocTable) (index : Nat) (p : List Nat) :
    Option (Nat × List Nat) :=
  match store with
  | [] => none
  | (nid, _) :: rest =>
    if 0 < index then getNextMatchingNodeID rest (index - 1) p
    else if idPrefixMatches p nid then some (0, nid)
    else (getNextMatchingNodeID rest 0 p).map (fun r => (r.1 + 1, r.2))

/-- Modelled from the spec: `getLastRXMsgCtr` (association store read,
external to the provided sources) — the last-accepted counter recorded
for the given full node ID. -/
def getLastRXMsgCtr (store : NodeAssocTable) (nodeID : List Nat) : Option (List Nat) :=
  match store with
  | [] => none
  | (nid, c) :: rest => if nid = nodeID then some c else getLastRXMsgCtr rest nodeID

/-- `SimpleSecureFrame32or0BodyRXBase::validateRXMsgCtr`: fetch the
node's last-accepted counter and accept iff the new counter compares
strictly greater.  (The NULL-counter guard of the source is untaken at
its call sites and not modelled.) -/
def validateRXMsgCtr (store : NodeAssocTable) (nodeID counter : List Nat) : Bool :=
  match getLastRXMsgCtr store nodeID with
  | none => false
  | some currentCounter => decide (0 < msgcountercmp counter currentCounter)

/-- Update the stored counter of the first entry with the given full ID. -/
def setLastRXMsgCtr : NodeAssocTable → List Nat → List Nat → NodeAssocTable
  | [], _, _ => []
  | (nid, c) :: rest, nodeID, ctr =>
    if nid = nodeID then (nid, ctr) :: rest
    else (nid, c) :: setLastRXMsgCtr rest nodeID ctr

/-- Modelled from the spec: `authAndUpdateRXMsgCtr` (counter
compare-and-update after successful authentication, implementation
external to the provided sources; spec §4.4/§6 and the
`updateRXMessageCountAfterAuthentication` unit tests) — commit the new
counter for the node iff it is strictly greater than the stored one,
else fail leaving the store unchanged. -/
def authAndUpdateRXMsgCtr (store : NodeAssocTable) (nodeID ctr : List Nat) :
    Option NodeAssocTable :=
  match getLastRXMsgCtr store nodeID with
  | none => none
  | some currentCounter =>
    if 0 < msgcountercmp ctr currentCounter
    then some (setLastRXMsgCtr store nodeID ctr)
    else none

/-- `SimpleSecureFrame32or0BodyRXBase::_decodeFromID`: build the IV from
the (adjusted) node ID and the counter bytes at the trailer offset, then
call `decodeRaw`.  `adjIDsize` is the capacity of the caller's ID
buffer (`adjID.bufsize`). -/
def _decodeFromID (sfh : SecurableFrameHeader) (ctext : Option (List Nat))
    (ptextPresent : Bool) (ptextLenMax : Nat) (d : DecFn)
    (adjID : List Nat) (adjIDsize : Nat) (key : Option (List Nat)) :
    OTDecodeResult :=
  if adjIDsize < 6 then ⟨0, 0, []⟩ else
  match ctext with
  | none => ⟨0, 0, []⟩
  | some buf =>
    let buflen := (buf.getD 0 0 + 1) % 256
    if buflen < sfh.getTrailerOffset + 6 then ⟨0, 0, []⟩ else
    let iv := adjID.take 6 ++ (buf.drop sfh.getTrailerOffset).take fullMsgCtrBytes
    decodeRaw sfh ctext ptextPresent ptextLenMax d key (some iv)

/-- `SimpleSecureFrame32or0BodyRXBase::decode`, the top-level receive
entry point: resolve the sender's full node ID by prefix match, extract
the 6-byte counter from the trailer, validate it against the stored
counter BEFORE any decryption, decrypt/authenticate via
`_decodeFromID`, and only then commit the counter update.
Result: (decode outputs, final association table).  (The copy of the
resolved sender ID to `fd.id` on success is not represented.) -/
def decode (store : NodeAssocTable) (sfh : SecurableFrameHeader)
    (ctext : Option (List Nat)) (ptextPresent : Bool) (ptextLenMax : Nat)
    (d : DecFn) (key : Option (List Nat)) :
    OTDecodeResult × NodeAssocTable :=
  match ctext with
  | none => (⟨0, 0, []⟩, store)
  | some buf =>
    if sfh.isInvalid then (⟨0, 0, []⟩, store) else
    if sfh.getTl ≠ 23 then (⟨0, 0, []⟩, store) else
    match getNextMatchingNodeID store 0 (sfh.id.take sfh.getIl) with
    | none => (⟨0, 0, []⟩, store)
    | some (_, nodeID) =>
      let messageCounter := (buf.drop sfh.getTrailerOffset).take fullMsgCtrBytes
      if ¬ validateRXMsgCtr store nodeID messageCounter then (⟨0, 0, []⟩, store) else
      let res := _decodeFromID sfh ctext ptextPresent ptextLenMax d nodeID
          OpenTRV_Node_ID_Bytes key
      if res.ret = 0 then (⟨0, 0, []⟩, store) else
      match authAndUpdateRXMsgCtr store nodeID messageCounter with
      | none => (⟨0, 0, []⟩, store)
      | some store2 => (res, store2)

/-- `SimpleSecureFrame32or0BodyTXBase::encode`, the high-level secure
encoder: checks the frame type, obtains the TX IV from the identity /
counter provider (`computeIVForTX12B`, an external collaborator,
modelled as the `Option` argument `txIV`), and for an ID longer than 6
bytes fetches the full TX ID (`getTXID`, modelled as `txID`) — a
failure of which makes it return 255; otherwise the ID is served from
the leading bytes of the IV, and `encodeRaw` completes the job. -/
def encode (h0 : SecurableFrameHeader) (fType : Nat) (outbufSize : Nat)
    (ptext : Option (List Nat)) (ptextLen : Nat) (il_ : Nat)
    (e : EncFn) (key : Option (List Nat))
    (txIV : Option (List Nat)) (txID : Option (List Nat)) :
    SecurableFrameHeader × List Nat × Nat :=
  if FTS_INVALID_HIGH ≤ fType ∨ fType = FTS_NONE then (h0, [], 0) else
  match txIV with
  | none => (h0, [], 0)
  | some iv =>
    let longID := 6 < il_
    if longID ∧ txID = none then (h0, [], 255) else
    let actualID := if longID then txID.getD [] else iv
    encodeRaw h0 fType outbufSize ptext ptextLen (some actualID) il_ iv e key




end OTRadioLink

namespace OTRadioLink

/-! ## Helper lemmas -/

/-- Successful non-secure header encode, in closed form. -/
lemma encodeHeader_nonsec_eq (h0 : SecurableFrameHeader) (buflen fType_ seqNum_ : Nat)
    (id : List Nat) (bl_ : Nat)
    (hft0 : fType_ ≠ 0) (hft1 : fType_ < 0x7f)
    (hil : id.length ≤ 8) (hbuf : 4 + id.length ≤ buflen)
    (hbl : bl_ ≤ 63 - (4 + id.length)) :
    encodeHeader h0 buflen false fType_ seqNum_ (some id) id.length bl_ 1 =
      ({ fl := 3 + id.length + bl_ + 1, fType := 0x7f &&& fType_,
         seqIl := (id.length ||| (seqNum_ <<< 4)) % 256,
         id := if 0 < id.length then id else h0.id, bl := bl_ },
       [3 + id.length + bl_ + 1, 0x7f &&& fType_, (id.length ||| (seqNum_ <<< 4)) % 256]
         ++ id ++ [bl_],
       4 + id.length) := by
  simp only [encodeHeader, FTS_NONE, FTS_INVALID_HIGH, maxIDLength, maxSmallFrameSize,
    Option.getD_some]
  rw [if_neg (by omega)]
  rw [if_neg (by omega)]
  rw [if_neg (by simp)]
  rw [if_neg (by omega)]
  rw [if_neg (by omega)]
  rw [if_neg (by simp)]
  rcases Nat.eq_zero_or_pos id.length with h0l | h0l
  · have hid : id = [] := List.eq_nil_of_length_eq_zero h0l
    subst hid
    simp only [List.length_nil, lt_irrefl, if_false, List.take_zero]
    rw [show 4 + 0 - 1 + bl_ + 1 = 3 + 0 + bl_ + 1 from by omega]
    rfl
  · rw [if_pos h0l, if_pos h0l]
    simp only [List.take_length]
    rw [show 4 + id.length - 1 + bl_ + 1 = 3 + id.length + bl_ + 1 from by omega]
    simp

/-- Successful secure header encode, in closed form. -/
lemma encodeHeader_sec_eq (h0 : SecurableFrameHeader) (buflen fType_ seqNum_ : Nat)
    (id : List Nat) (bl_ tl_ : Nat)
    (hft0 : fType_ ≠ 0) (hft1 : fType_ < 0x7f)
    (hil : id.length ≤ 8) (hbuf : 4 + id.length ≤ buflen)
    (hbl : bl_ ≤ 63 - (4 + id.length))
    (htl1 : 1 ≤ tl_) (htl2 : tl_ ≤ 64 - (4 + id.length) - bl_) :
    encodeHeader h0 buflen true fType_ seqNum_ (some id) id.length bl_ tl_ =
      ({ fl := 3 + id.length + bl_ + tl_, fType := (0x80 ||| fType_) % 256,
         seqIl := (id.length ||| (seqNum_ <<< 4)) % 256,
         id := if 0 < id.length then id else h0.id, bl := bl_ },
       [3 + id.length + bl_ + tl_, (0x80 ||| fType_) % 256,
         (id.length ||| (seqNum_ <<< 4)) % 256] ++ id ++ [bl_],
       4 + id.length) := by
  simp only [encodeHeader, FTS_NONE, FTS_INVALID_HIGH, maxIDLength, maxSmallFrameSize,
    Option.getD_some]
  rw [if_neg (by omega)]
  rw [if_neg (by omega)]
  rw [if_neg (by simp)]
  rw [if_neg (by omega)]
  rw [if_neg (by omega)]
  rw [if_neg (by simp; omega)]
  rcases Nat.eq_zero_or_pos id.length with h0l | h0l
  · have hid : id = [] := List.eq_nil_of_length_eq_zero h0l
    subst hid
    simp only [List.length_nil, lt_irrefl, if_false, List.take_zero]
    rw [show 4 + 0 - 1 + bl_ + tl_ = 3 + 0 + bl_ + tl_ from by omega]
    rfl
  · rw [if_pos h0l, if_pos h0l]
    simp only [List.take_length]
    rw [show 4 + id.length - 1 + bl_ + tl_ = 3 + id.length + bl_ + tl_ from by omega]
    simp

/-- On a header whose fields are mutually consistent and in byte range,
`getTl` is the plain subtraction `fl - 3 - il - bl`. -/
lemma getTl_eq (h : SecurableFrameHeader) (h1 : 3 + h.getIl + h.bl ≤ h.fl)
    (h2 : h.fl ≤ 258) :
    h.getTl = h.fl - 3 - h.getIl - h.bl := by
  unfold SecurableFrameHeader.getTl
  rw [Int.emod_eq_of_lt (by omega) (by omega)]
  omega

lemma getD_cons3 (a b c : Nat) (L : List Nat) (n : Nat) :
    (a :: b :: c :: L).getD (3 + n) 0 = L.getD n 0 := by
  rw [show 3 + n = n + 1 + 1 + 1 from by omega]; rfl

lemma getD_append_len (l : List Nat) (x : Nat) (l2 : List Nat) :
    (l ++ x :: l2).getD l.length 0 = x := by
  rw [List.getD_append_right _ _ _ _ (le_refl _)]
  simp

/-- Each CRC update step yields a 7-bit value. -/
lemma crc7_5B_update_le (c d : Nat) : crc7_5B_update c d ≤ 127 :=
  Nat.and_le_right

/-- A CRC fold over a non-empty byte list yields a 7-bit value. -/
lemma foldl_crc7_le (xs : List Nat) (c : Nat) (hne : xs ≠ []) :
    xs.foldl crc7_5B_update c ≤ 127 := by
  induction xs generalizing c with
  | nil => exact absurd rfl hne
  | cons x xs ih =>
    cases xs with
    | nil => exact crc7_5B_update_le c x
    | cons y ys => exact ih (crc7_5B_update c x) (by simp)

/-- On a valid header and adequate buffer, `computeNonSecureCRC` yields a
value in `[1, 0x80]` (so never the forbidden trailer bytes 0x00/0xff). -/
lemma computeNonSecureCRC_range (h : SecurableFrameHeader) (buf : List Nat)
    (buflen : Nat) (hv : h.fl ≠ 0) (hb : h.fl ≤ buflen) :
    1 ≤ computeNonSecureCRC h buf buflen ∧ computeNonSecureCRC h buf buflen ≤ 0x80 := by
  unfold computeNonSecureCRC
  rw [if_neg (show ¬ h.isInvalid from hv), if_neg (by omega)]
  rcases Nat.eq_zero_or_pos ((buf.take h.fl).foldl crc7_5B_update 0x7f) with hz | hp
  · rw [hz]; exact ⟨by norm_num, by norm_num⟩
  · rw [if_neg (by omega)]
    constructor
    · omega
    · rcases eq_or_ne (buf.take h.fl) [] with hnil | hne
      · rw [hnil]
        norm_num [List.foldl]
      · have := foldl_crc7_le (buf.take h.fl) 0x7f hne
        omega

/-- `computeNonSecureCRC` depends only on the frame length and the first
`fl` buffer bytes, provided the declared buffer lengths are adequate. -/
lemma computeNonSecureCRC_congr (h1 h2 : SecurableFrameHeader) (b1 b2 : List Nat)
    (n1 n2 : Nat) (hfl : h1.fl = h2.fl) (hn1 : h1.fl ≤ n1) (hn2 : h2.fl ≤ n2)
    (htake : b1.take h1.fl = b2.take h2.fl) :
    computeNonSecureCRC h1 b1 n1 = computeNonSecureCRC h2 b2 n2 := by
  unfold computeNonSecureCRC
  rcases eq_or_ne h1.fl 0 with h0 | h0
  · rw [if_pos (show h1.isInvalid from h0),
      if_pos (show h2.isInvalid from (by omega : h2.fl = 0))]
  · rw [if_neg (show ¬ h1.isInvalid from h0),
      if_neg (show ¬ h2.isInvalid from (by omega : ¬ h2.fl = 0)),
      if_neg (show ¬ n1 < h1.fl from by omega),
      if_neg (show ¬ n2 < h2.fl from by omega), htake]

/-- Successful header decode of a well-formed frame, in closed form.
The frame is `fl :: t :: s :: (id ++ bl :: rest)` and the hypotheses are
the Quick Integrity Checks. -/
lemma decodeHeader_eq (h0 : SecurableFrameHeader) (fl_ t s : Nat) (idb : List Nat)
    (bl_ : Nat) (rest : List Nat) (buflen : Nat)
    (hil : s &&& 0xf = idb.length)
    (hbuflen : 5 ≤ buflen)
    (hfl4 : 4 ≤ fl_) (hfl63 : fl_ ≤ 63)
    (ht0 : t &&& 0x7f ≠ 0) (ht1 : t &&& 0x7f < 0x7f)
    (hil8 : idb.length ≤ 8) (hil4 : idb.length ≤ fl_ - 4)
    (hhl : 4 + idb.length ≤ buflen)
    (hbl : bl_ ≤ fl_ - (4 + idb.length))
    (hlast : fl_ < buflen →
      (fl_ :: t :: s :: (idb ++ bl_ :: rest)).getD fl_ 0 ≠ 0x00 ∧
      (fl_ :: t :: s :: (idb ++ bl_ :: rest)).getD fl_ 0 ≠ 0xff)
    (htl : (0x80 &&& t = 0 → fl_ - 3 - idb.length - bl_ = 1) ∧
           (0x80 &&& t ≠ 0 → fl_ - 3 - idb.length - bl_ ≠ 0)) :
    decodeHeader h0 (fl_ :: t :: s :: (idb ++ bl_ :: rest)) buflen =
      ({ fl := fl_, fType := t, seqIl := s,
         id := if 0 < idb.length then idb else h0.id, bl := bl_ }, 4 + idb.length) := by
  have hgd0 : (fl_ :: t :: s :: (idb ++ bl_ :: rest)).getD 0 0 = fl_ := rfl
  have hgd1 : (fl_ :: t :: s :: (idb ++ bl_ :: rest)).getD 1 0 = t := rfl
  have hgd2 : (fl_ :: t :: s :: (idb ++ bl_ :: rest)).getD 2 0 = s := rfl
  have hdrop3 : (fl_ :: t :: s :: (idb ++ bl_ :: rest)).drop 3 = idb ++ bl_ :: rest := rfl
  have hblread : (fl_ :: t :: s :: (idb ++ bl_ :: rest)).getD (4 + idb.length - 1) 0 = bl_ := by
    rw [show 4 + idb.length - 1 = 3 + idb.length from by omega, getD_cons3, getD_append_len]
  unfold decodeHeader
  dsimp only [FTS_NONE, FTS_INVALID_HIGH, maxIDLength, maxSmallFrameSize,
    SecurableFrameHeader.getIl, SecurableFrameHeader.isSecure]
  simp only [hgd0, hgd1, hgd2, hdrop3, hil, hblread]
  rw [if_neg (by omega)]
  rw [if_neg (by omega)]
  rw [if_neg (by omega)]
  rw [if_neg (by omega)]
  rw [if_neg (by omega)]
  rw [if_neg (by omega)]
  rw [if_neg (by omega)]
  rw [if_neg (by omega)]
  rw [if_neg (by
    rintro ⟨hlt, hor⟩
    rcases hlast hlt with ⟨hne0, hneff⟩
    rcases hor with hh | hh
    · exact hne0 hh
    · exact hneff hh)]
  rw [if_neg (by
    rcases htl with ⟨htl1, htl2⟩
    omega)]
  simp only [List.take_left]

/-- Successful non-secure whole-frame encode, in closed form: header
bytes, then the body, then the CRC trailer byte. -/
lemma encodeNonsecure_eq (h0 : SecurableFrameHeader) (outbufSize : Nat)
    (body : List Nat) (fType seqNum : Nat) (id : List Nat)
    (hft0 : fType ≠ 0) (hft1 : fType < 0x7f)
    (hil : id.length ≤ 8) (hbl : body.length ≤ 63 - (4 + id.length))
    (hbuf : 4 + id.length + body.length < outbufSize) :
    encodeNonsecure h0 outbufSize body fType seqNum (some id) id.length =
      (let hdr : SecurableFrameHeader :=
        { fl := 3 + id.length + body.length + 1, fType := 0x7f &&& fType,
          seqIl := (id.length ||| (seqNum <<< 4)) % 256,
          id := if 0 < id.length then id else h0.id, bl := body.length }
       let hdrBytes := [3 + id.length + body.length + 1, 0x7f &&& fType,
          (id.length ||| (seqNum <<< 4)) % 256] ++ id ++ [body.length]
       (hdr, hdrBytes ++ body ++ [computeNonSecureCRC hdr (hdrBytes ++ body) outbufSize],
        3 + id.length + body.length + 1 + 1)) := by
  unfold encodeNonsecure
  rw [encodeHeader_nonsec_eq h0 outbufSize fType seqNum id body.length hft0 hft1 hil
    (by omega) (by omega)]
  dsimp only []
  rw [if_neg (by omega), if_neg (by omega)]

/-- Bit arithmetic of the packed sequence-number / ID-length byte. -/
lemma seqIl_bits : ∀ il, il < 16 → ∀ s, s < 16 →
    ((il ||| s <<< 4) % 256) &&& 0xf = il ∧
    (((il ||| s <<< 4) % 256) >>> 4) &&& 0xf = s := by decide

/-- Bit arithmetic of the non-secure type byte. -/
lemma type_bits_nonsec : ∀ t, t < 0x7f →
    (0x7f &&& t) &&& 0x7f = t ∧ 0x80 &&& (0x7f &&& t) = 0 := by decide

/-- Bit arithmetic of the secure type byte. -/
lemma type_bits_sec : ∀ t, t < 0x7f →
    ((0x80 ||| t) % 256) &&& 0x7f = t ∧ 0x80 &&& ((0x80 ||| t) % 256) ≠ 0 := by decide

/-- The non-secure encode/decode roundtrip, in closed form: the encoded
frame decodes back to the original type, sequence number, ID and body,
and the CRC check passes. -/
lemma nonsec_roundtrip (fType seqNum : Nat) (id body : List Nat)
    (hft0 : fType ≠ 0) (hft1 : fType < 0x7f) (hseq : seqNum < 16)
    (hil : id.length ≤ 8) (hbl : body.length ≤ 31) :
    ∃ h2 : SecurableFrameHeader,
      decodeHeader .init (encodeNonsecure .init 64 body fType seqNum (some id) id.length).2.1
          (encodeNonsecure .init 64 body fType seqNum (some id) id.length).2.1.length =
        (h2, 4 + id.length) ∧
      (encodeNonsecure .init 64 body fType seqNum (some id) id.length).2.2 =
        (encodeNonsecure .init 64 body fType seqNum (some id) id.length).1.fl + 1 ∧
      (encodeNonsecure .init 64 body fType seqNum (some id) id.length).1.fl =
        3 + id.length + body.length + 1 ∧
      h2.fl = 3 + id.length + body.length + 1 ∧
      h2.fType &&& 0x7f = fType ∧
      h2.getSeq = seqNum ∧ h2.getIl = id.length ∧
      h2.id.take h2.getIl = id ∧ h2.bl = body.length ∧
      ((encodeNonsecure .init 64 body fType seqNum (some id) id.length).2.1.drop
          h2.getBodyOffset).take h2.bl = body ∧
      decodeNonsecure h2
        (some (encodeNonsecure .init 64 body fType seqNum (some id) id.length).2.1)
        (encodeNonsecure .init 64 body fType seqNum (some id) id.length).2.1.length =
        3 + id.length + body.length + 1 + 1 := by
  have hE := encodeNonsecure_eq .init 64 body fType seqNum id hft0 hft1 hil
    (by omega) (by omega)
  rw [hE]
  dsimp only
  set fl_ := 3 + id.length + body.length + 1 with hfl
  set t := 0x7f &&& fType with ht
  set s := (id.length ||| (seqNum <<< 4)) % 256 with hs
  set hdr : SecurableFrameHeader :=
    { fl := fl_, fType := t, seqIl := s,
      id := if 0 < id.length then id else SecurableFrameHeader.init.id,
      bl := body.length } with hhdr
  set hdrBytes := [fl_, t, s] ++ id ++ [body.length] with hhb
  set crcE := computeNonSecureCRC hdr (hdrBytes ++ body) 64 with hcrc
  have hsbits := seqIl_bits id.length (by omega) seqNum hseq
  have htbits := type_bits_nonsec fType hft1
  have hcr := computeNonSecureCRC_range hdr (hdrBytes ++ body) 64 (by simp [hhdr, hfl])
    (by simp [hhdr]; omega)
  have hframe : hdrBytes ++ body ++ [crcE] =
      fl_ :: t :: s :: (id ++ body.length :: (body ++ [crcE])) := by
    simp [hhb, List.append_assoc]
  have hlen : (hdrBytes ++ body ++ [crcE]).length = fl_ + 1 := by
    simp [hhb, hfl]
    omega
  have hcrcread : (fl_ :: t :: s :: (id ++ body.length :: (body ++ [crcE]))).getD fl_ 0
      = crcE := by
    rw [show fl_ = 3 + (id.length + (body.length + 1)) from by omega, getD_cons3,
      List.getD_append_right _ _ _ _ (by omega),
      show id.length + (body.length + 1) - id.length = body.length + 1 from by omega]
    show (body ++ [crcE]).getD body.length 0 = crcE
    exact getD_append_len body crcE []
  have hdec := decodeHeader_eq .init fl_ t s id body.length (body ++ [crcE]) (fl_ + 1)
    (by rw [hs]; exact hsbits.1)
    (by omega) (by omega) (by omega)
    (by rw [ht]; rw [htbits.1]; exact hft0)
    (by rw [ht]; rw [htbits.1]; exact hft1)
    hil (by omega) (by omega) (by omega)
    (fun _ => by rw [hcrcread]; omega)
    (by constructor
        · intro _; omega
        · intro hne; exact absurd (by rw [ht]; exact htbits.2) hne)
  rw [hframe]
  rw [hframe] at hlen
  rw [hlen]
  refine ⟨_, hdec, rfl, rfl, rfl, ?_, ?_, ?_, ?_, rfl, ?_, ?_⟩
  · show t &&& 0x7f = fType
    rw [ht]; exact htbits.1
  · show (s >>> 4) &&& 0xf = seqNum
    rw [hs]; exact hsbits.2
  · show s &&& 0xf = id.length
    rw [hs]; exact hsbits.1
  · show (if 0 < id.length then id else SecurableFrameHeader.init.id).take (s &&& 0xf) = id
    rw [hs, hsbits.1]
    rcases Nat.eq_zero_or_pos id.length with h0 | h0
    · rw [if_neg (by omega), List.eq_nil_of_length_eq_zero h0]
      simp
    · rw [if_pos h0, List.take_length id]
  · show ((fl_ :: t :: s :: (id ++ body.length :: (body ++ [crcE]))).drop
        (4 + (s &&& 0xf))).take body.length = body
    rw [hs, hsbits.1, ← hframe, hhb]
    rw [show [fl_, t, s] ++ id ++ [body.length] ++ body ++ [crcE] =
        ([fl_, t, s] ++ id ++ [body.length]) ++ (body ++ [crcE]) from by
      simp [List.append_assoc]]
    rw [List.drop_left' (by simp; omega), List.take_left' rfl]
  · show decodeNonsecure _ (some (fl_ :: t :: s :: (id ++ body.length :: (body ++ [crcE]))))
        (fl_ + 1) = fl_ + 1
    unfold decodeNonsecure
    dsimp only
    rw [if_neg (show ¬ SecurableFrameHeader.isInvalid _ from by
      simp [SecurableFrameHeader.isInvalid, hfl])]
    rw [if_neg (show ¬ _ ≠ 1 from by
      rw [getTl_eq _ (by simp [SecurableFrameHeader.getIl, hs, hsbits.1]; omega)
        (by simp; omega)]
      simp [SecurableFrameHeader.getIl, hs, hsbits.1]
      omega)]
    have htake1 : (fl_ :: t :: s :: (id ++ body.length :: (body ++ [crcE]))).take fl_ =
        hdrBytes ++ body := by
      rw [← hframe]
      rw [show hdrBytes ++ body ++ [crcE] = (hdrBytes ++ body) ++ [crcE] from by
        simp [List.append_assoc]]
      rw [List.take_left' (by simp [hhb]; omega)]
    have htake2 : (hdrBytes ++ body).take fl_ = hdrBytes ++ body := by
      rw [show fl_ = (hdrBytes ++ body).length from by simp [hhb]; omega]
      exact List.take_length _
    have hcrceq : computeNonSecureCRC
        { fl := fl_, fType := t, seqIl := s,
          id := if 0 < id.length then id else SecurableFrameHeader.init.id,
          bl := body.length }
        (fl_ :: t :: s :: (id ++ body.length :: (body ++ [crcE]))) (fl_ + 1) = crcE := by
      rw [hcrc]
      exact computeNonSecureCRC_congr _ hdr _ (hdrBytes ++ body) (fl_ + 1) 64
        rfl (show fl_ ≤ fl_ + 1 by omega) (show fl_ ≤ 64 by omega)
        (show (fl_ :: t :: s :: (id ++ body.length :: (body ++ [crcE]))).take fl_ =
            (hdrBytes ++ body).take fl_ from by rw [htake1]; exact htake2.symm)
    rw [hcrceq]
    rw [if_neg (by omega)]
    rw [if_neg (show ¬ _ ≠ crcE from by rw [hcrcread]; omega)]

lemma seg_extract (p seg suffix : List Nat) (n m : Nat) (hn : p.length = n)
    (hm : seg.length = m) :
    ((p ++ (seg ++ suffix)).drop n).take m = seg := by
  rw [List.drop_left' hn, List.take_left' hm]

lemma getD_at_len (p : List Nat) (x : Nat) (suffix : List Nat) (n : Nat)
    (hn : p.length = n) :
    (p ++ x :: suffix).getD n 0 = x := by
  subst hn; exact getD_append_len p x suffix


/-- Shape of every `decodeRaw` outcome: either the all-zero failure
result, or — only with a valid header — a success result carrying
return value `fl + 1`, with plaintext length 0 and empty plaintext
whenever the header has no body. -/
lemma decodeRaw_shape (sfh : SecurableFrameHeader) (pp : Bool) (plm : Nat) (d : DecFn)
    (ctext key iv : Option (List Nat)) :
    decodeRaw sfh ctext pp plm d key iv = ⟨0, 0, []⟩ ∨
    (¬ sfh.isInvalid ∧ ∃ n l, decodeRaw sfh ctext pp plm d key iv = ⟨sfh.fl + 1, n, l⟩ ∧
      (sfh.bl = 0 → n = 0 ∧ l = [])) := by
  rcases ctext with _ | buf
  · exact Or.inl rfl
  rcases key with _ | k
  · exact Or.inl rfl
  rcases iv with _ | i
  · exact Or.inl rfl
  unfold decodeRaw
  dsimp only
  by_cases h1 : sfh.isInvalid
  · rw [if_pos h1]
    exact Or.inl rfl
  rw [if_neg h1]
  by_cases h2 : (buf.getD 0 0 + 1) % 256 ≤ sfh.fl
  · rw [if_pos h2]
    exact Or.inl rfl
  rw [if_neg h2]
  by_cases h3 : sfh.getTl ≠ 23
  · rw [if_pos h3]
    exact Or.inl rfl
  rw [if_neg h3]
  by_cases h4 : buf.getD sfh.fl 0 ≠ 0x80
  · rw [if_pos h4]
    exact Or.inl rfl
  rw [if_neg h4]
  by_cases h5 : sfh.bl ≠ 0 ∧ sfh.bl ≠ ENC_BODY_SMALL_FIXED_CTEXT_SIZE
  · rw [if_pos h5]
    exact Or.inl rfl
  rw [if_neg h5]
  by_cases h6 : sfh.getSeq ≠ i.getD 11 0 &&& 0xf
  · rw [if_pos h6]
    exact Or.inl rfl
  rw [if_neg h6]
  split
  · exact Or.inl rfl
  · rename_i db hd
    by_cases h7 : pp = true ∧ sfh.bl ≠ 0
    · rw [if_pos h7]
      by_cases h8 : ENC_BODY_SMALL_FIXED_PTEXT_MAX_SIZE < unpad32BBuffer db
      · rw [if_pos h8]
        exact Or.inl rfl
      rw [if_neg h8]
      by_cases h9 : plm < unpad32BBuffer db
      · rw [if_pos h9]
        exact Or.inl rfl
      rw [if_neg h9]
      exact Or.inr ⟨h1, _, _, rfl, fun hb => absurd hb h7.2⟩
    · rw [if_neg h7]
      exact Or.inr ⟨h1, 0, [], rfl, fun _ => ⟨rfl, rfl⟩⟩


/-- `setLastRXMsgCtr` changes only a stored counter, never the set of
node IDs, so association-table ID resolution is unaffected. -/
lemma getNextMatchingNodeID_set (store : NodeAssocTable) (idx : Nat)
    (p nid ctr : List Nat) :
    getNextMatchingNodeID (setLastRXMsgCtr store nid ctr) idx p =
      getNextMatchingNodeID store idx p := by
  induction store generalizing idx with
  | nil => rfl
  | cons hd rest ih =>
    rcases hd with ⟨a, c⟩
    unfold setLastRXMsgCtr
    by_cases ha : a = nid
    · rw [if_pos ha]
      rfl
    · rw [if_neg ha]
      unfold getNextMatchingNodeID
      rw [ih, ih]

/-- After `setLastRXMsgCtr`, a node that had a stored counter reads back
the newly written counter. -/
lemma getLastRXMsgCtr_set_self (store : NodeAssocTable) (nid cur ctr : List Nat)
    (h : getLastRXMsgCtr store nid = some cur) :
    getLastRXMsgCtr (setLastRXMsgCtr store nid ctr) nid = some ctr := by
  induction store with
  | nil => cases h
  | cons hd rest ih =>
    rcases hd with ⟨a, c⟩
    unfold setLastRXMsgCtr
    by_cases ha : a = nid
    · rw [if_pos ha]
      unfold getLastRXMsgCtr
      rw [if_pos ha]
    · rw [if_neg ha]
      unfold getLastRXMsgCtr
      rw [if_neg ha]
      unfold getLastRXMsgCtr at h
      rw [if_neg ha] at h
      exact ih h

/-- A counter never compares strictly greater than itself. -/
lemma msgcountercmp_self (c : List Nat) : msgcountercmp c c = 0 := by
  unfold msgcountercmp
  rw [if_neg (lt_irrefl _), if_pos rfl]

/-- Every `decode` outcome: either the failure result with the table
untouched, or — with a valid header, a resolved node and a strictly
greater frame counter — the `_decodeFromID` result paired with the table
updated to the frame counter. -/
lemma decode_cases (store : NodeAssocTable) (sfh : SecurableFrameHeader) (buf : List Nat)
    (pp : Bool) (plm : Nat) (d : DecFn) (key : Option (List Nat)) :
    decode store sfh (some buf) pp plm d key = (⟨0, 0, []⟩, store) ∨
    (¬ sfh.isInvalid ∧ sfh.getTl = 23 ∧
      ∃ i nodeID cur,
        getNextMatchingNodeID store 0 (sfh.id.take sfh.getIl) = some (i, nodeID) ∧
        getLastRXMsgCtr store nodeID = some cur ∧
        0 < msgcountercmp ((buf.drop sfh.getTrailerOffset).take fullMsgCtrBytes) cur ∧
        (_decodeFromID sfh (some buf) pp plm d nodeID OpenTRV_Node_ID_Bytes key).ret ≠ 0 ∧
        decode store sfh (some buf) pp plm d key =
          (_decodeFromID sfh (some buf) pp plm d nodeID OpenTRV_Node_ID_Bytes key,
           setLastRXMsgCtr store nodeID
             ((buf.drop sfh.getTrailerOffset).take fullMsgCtrBytes))) := by
  unfold decode
  dsimp only
  by_cases c1 : sfh.isInvalid
  · rw [if_pos c1]
    exact Or.inl rfl
  rw [if_neg c1]
  by_cases c2 : sfh.getTl ≠ 23
  · rw [if_pos c2]
    exact Or.inl rfl
  rw [if_neg c2]
  split
  · exact Or.inl rfl
  · rename_i i0 nodeID heq
    by_cases c3 : validateRXMsgCtr store nodeID
        ((buf.drop sfh.getTrailerOffset).take fullMsgCtrBytes) = true
    · rw [if_neg (not_not_intro c3)]
      have c3' := c3
      unfold validateRXMsgCtr at c3'
      rcases hcur : getLastRXMsgCtr store nodeID with _ | cur
      · rw [hcur] at c3'
        cases c3'
      rw [hcur] at c3'
      have hcmp := of_decide_eq_true c3'
      by_cases c4 : (_decodeFromID sfh (some buf) pp plm d nodeID
          OpenTRV_Node_ID_Bytes key).ret = 0
      · rw [if_pos c4]
        exact Or.inl rfl
      rw [if_neg c4]
      rw [show authAndUpdateRXMsgCtr store nodeID
            ((buf.drop sfh.getTrailerOffset).take fullMsgCtrBytes) =
          some (setLastRXMsgCtr store nodeID
            ((buf.drop sfh.getTrailerOffset).take fullMsgCtrBytes)) from by
        unfold authAndUpdateRXMsgCtr
        rw [hcur]
        show (if 0 < msgcountercmp
            ((buf.drop sfh.getTrailerOffset).take fullMsgCtrBytes) cur then
          some (setLastRXMsgCtr store nodeID
            ((buf.drop sfh.getTrailerOffset).take fullMsgCtrBytes)) else none) =
          some (setLastRXMsgCtr store nodeID
            ((buf.drop sfh.getTrailerOffset).take fullMsgCtrBytes))
        rw [if_pos hcmp]]
      exact Or.inr ⟨c1, not_not.mp c2, i0, nodeID, cur, heq, hcur, hcmp, c4, rfl⟩
    · rw [if_pos c3]
      exact Or.inl rfl

/-- The secure encode/decode roundtrip, in closed form, for any matching
encryption/decryption pair: `encodeRaw` succeeds, the produced frame's
header decodes back to the original type, sequence number (the low four
bits of `iv[11]`), ID and body length, and `decodeRaw` authenticates and
returns the original plaintext body. -/
lemma sec_roundtrip (fType : Nat) (id body iv key : List Nat) (e : EncFn) (d : DecFn)
    (hft0 : fType ≠ 0) (hft1 : fType < 0x7f)
    (hil : id.length ≤ 8) (hbl : body.length ≤ 31)
    (hil5 : 0 < body.length → id.length ≤ 5)
    (hiv : iv.length = 12)
    (henc : ∀ authtext pt, ∃ r, e key iv authtext pt = some r ∧ r.2.length = 16 ∧
      (∀ p, pt = some p → p.length = 32 → r.1.length = 32))
    (hdecinv : ∀ authtext pt ct tag, pt.length = 32 →
      e key iv authtext (some pt) = some (ct, tag) →
      d key iv authtext (some ct) tag = some pt)
    (hdec0 : ∀ authtext ct tag, e key iv authtext none = some (ct, tag) →
      ∃ p, d key iv authtext none tag = some p) :
    ∃ h2 : SecurableFrameHeader,
      (encodeRaw .init fType 64 (some body) body.length (some id) id.length iv e
          (some key)).2.2 =
        (encodeRaw .init fType 64 (some body) body.length (some id) id.length iv e
          (some key)).1.fl + 1 ∧
      (encodeRaw .init fType 64 (some body) body.length (some id) id.length iv e
          (some key)).1.fl =
        3 + id.length + (if body.length = 0 then 0 else 32) + 23 ∧
      decodeHeader .init
          (encodeRaw .init fType 64 (some body) body.length (some id) id.length iv e
            (some key)).2.1
          (encodeRaw .init fType 64 (some body) body.length (some id) id.length iv e
            (some key)).2.1.length =
        (h2, 4 + id.length) ∧
      h2.fl = 3 + id.length + (if body.length = 0 then 0 else 32) + 23 ∧
      h2.fType &&& 0x7f = fType ∧
      h2.getSeq = iv.getD 11 0 &&& 0xf ∧
      h2.getIl = id.length ∧
      h2.id.take h2.getIl = id ∧
      h2.bl = (if body.length = 0 then 0 else 32) ∧
      decodeRaw h2
          (some (encodeRaw .init fType 64 (some body) body.length (some id) id.length iv e
            (some key)).2.1)
          true 31 d (some key) (some iv) =
        ⟨(3 + id.length + (if body.length = 0 then 0 else 32) + 23) + 1,
          body.length, body⟩ := by
  have hseqlt : iv.getD 11 0 &&& 0xf < 16 := by
    have : iv.getD 11 0 &&& 0xf ≤ 0xf := Nat.and_le_right
    omega
  have hsbits := seqIl_bits id.length (by omega) (iv.getD 11 0 &&& 0xf) hseqlt
  have htbits := type_bits_sec fType hft1
  rcases Nat.eq_zero_or_pos body.length with hb0 | hbpos
  · -- no body: encrypted body length 0, 26-byte frame (+ length byte)
    have hbnil : body = [] := List.eq_nil_of_length_eq_zero hb0
    subst hbnil
    simp only [List.length_nil, eq_self_iff_true, if_true]
    set s := (id.length ||| ((iv.getD 11 0 &&& 0xf) <<< 4)) % 256 with hs
    set tS := (0x80 ||| fType) % 256 with ht
    set fl_ := 3 + id.length + 0 + 23 with hfl
    set hdrBytes := [fl_, tS, s] ++ id ++ [0] with hhb
    obtain ⟨⟨ct0, tag0⟩, he0, htagl, _⟩ := henc hdrBytes none
    have hE : encodeRaw .init fType 64 (some []) 0 (some id) id.length iv e (some key) =
        ({ fl := fl_, fType := tS, seqIl := s,
           id := if 0 < id.length then id else SecurableFrameHeader.init.id, bl := 0 },
         hdrBytes ++ ((iv.drop 6).take 6 ++ (tag0 ++ [0x80])), fl_ + 1) := by
      unfold encodeRaw
      dsimp only
      rw [if_neg (by omega)]
      simp only [List.length_nil, eq_self_iff_true, if_true, ne_eq, not_true, if_false,
        false_and]
      rw [encodeHeader_sec_eq .init 64 fType (iv.getD 11 0 &&& 0xf) id 0 23 hft0 hft1 hil
        (by omega) (by omega) (by omega) (by omega)]
      dsimp only
      rw [if_neg (by omega), if_neg (by omega)]
      rw [← hfl, ← ht, ← hs, ← hhb]
      rw [he0]
      dsimp only
      simp [List.append_assoc]
    rw [hE]
    dsimp only
    set R := (iv.drop 6).take 6 ++ (tag0 ++ [0x80]) with hR
    have hRlen : R.length = 23 := by
      simp [hR, htagl, List.length_take, List.length_drop, hiv]
    have hframe : hdrBytes ++ R = fl_ :: tS :: s :: (id ++ 0 :: R) := by
      simp [hhb, List.append_assoc]
    have hflen : (fl_ :: tS :: s :: (id ++ 0 :: R)).length = fl_ + 1 := by
      simp [hRlen, hfl]
      omega
    have hlastread : (fl_ :: tS :: s :: (id ++ 0 :: R)).getD fl_ 0 = 0x80 := by
      rw [← hframe]
      rw [show hdrBytes ++ R = (hdrBytes ++ (iv.drop 6).take 6 ++ tag0) ++ 0x80 :: [] from by
        simp [hR, hhb, List.append_assoc]]
      exact getD_at_len _ _ _ _ (by
        simp [hhb, htagl, List.length_take, List.length_drop, hiv]
        omega)
    have hdec2 := decodeHeader_eq .init fl_ tS s id 0 R (fl_ + 1)
      (by rw [hs]; exact hsbits.1)
      (by omega) (by omega) (by omega)
      (by rw [ht]; rw [htbits.1]; exact hft0)
      (by rw [ht]; rw [htbits.1]; exact hft1)
      hil (by omega) (by omega) (by omega)
      (fun _ => by rw [hlastread]; omega)
      (by constructor
          · intro habs
            exact absurd habs htbits.2
          · intro _; omega)
    rw [hframe]
    rw [hflen]
    refine ⟨_, rfl, rfl, hdec2, rfl, ?_, ?_, ?_, ?_, rfl, ?_⟩
    · show tS &&& 0x7f = fType
      rw [ht]; exact htbits.1
    · show (s >>> 4) &&& 0xf = iv.getD 11 0 &&& 0xf
      rw [hs]; exact hsbits.2
    · show s &&& 0xf = id.length
      rw [hs]; exact hsbits.1
    · show (if 0 < id.length then id else SecurableFrameHeader.init.id).take (s &&& 0xf) = id
      rw [hs, hsbits.1]
      rcases Nat.eq_zero_or_pos id.length with h0 | h0
      · rw [if_neg (by omega), List.eq_nil_of_length_eq_zero h0]
        simp
      · rw [if_pos h0, List.take_length id]
    · -- decodeRaw succeeds with empty plaintext
      unfold decodeRaw
      dsimp only
      rw [show (fl_ :: tS :: s :: (id ++ 0 :: R)).getD 0 0 = fl_ from rfl]
      rw [show (fl_ + 1) % 256 = fl_ + 1 from Nat.mod_eq_of_lt (by omega)]
      rw [if_neg (show ¬ SecurableFrameHeader.isInvalid { fl := fl_, fType := tS, seqIl := s, id := if 0 < id.length then id else SecurableFrameHeader.init.id, bl := 0 } from show ¬ fl_ = 0 from by omega)]
      rw [if_neg (show ¬ fl_ + 1 ≤ fl_ from by omega)]
      rw [if_neg (show ¬ _ ≠ 23 from by
        rw [getTl_eq _ (by dsimp only [SecurableFrameHeader.getIl]; rw [hsbits.1]; omega)
          (by dsimp only; omega)]
        dsimp only [SecurableFrameHeader.getIl]
        rw [hsbits.1]
        omega)]
      rw [if_neg (show ¬ _ ≠ 0x80 from by rw [hlastread]; omega)]
      rw [if_neg (show ¬ ((0 : Nat) ≠ 0 ∧ (0 : Nat) ≠ ENC_BODY_SMALL_FIXED_CTEXT_SIZE)
        from by simp)]
      rw [if_neg (show ¬ _ ≠ _ from by
        dsimp only [SecurableFrameHeader.getSeq]
        rw [hsbits.2]
        exact fun hne => hne rfl)]
      have hauthtext : (fl_ :: tS :: s :: (id ++ 0 :: R)).take
          (SecurableFrameHeader.getHl { fl := fl_, fType := tS, seqIl := s, id := if 0 < id.length then id else SecurableFrameHeader.init.id, bl := 0 })
          = hdrBytes := by
        rw [← hframe]
        dsimp only [SecurableFrameHeader.getHl, SecurableFrameHeader.getIl]
        rw [hsbits.1]
        exact List.take_left' (by simp [hhb]; omega)
      have htagread : ((fl_ :: tS :: s :: (id ++ 0 :: R)).drop (fl_ - 16)).take 16
          = tag0 := by
        rw [← hframe]
        rw [show hdrBytes ++ R = (hdrBytes ++ (iv.drop 6).take 6) ++ (tag0 ++ [0x80]) from by
          simp [hR, hhb, List.append_assoc]]
        exact seg_extract _ _ _ _ _ (by
          simp [hhb, List.length_take, List.length_drop, hiv]
          omega) htagl
      rw [if_pos (show (0 : Nat) = 0 from rfl)]
      rw [hauthtext, htagread]
      obtain ⟨p0, hp0⟩ := hdec0 hdrBytes ct0 tag0 he0
      rw [hp0]
      dsimp only
      rw [if_neg (show ¬ ((true = true) ∧ (0 : Nat) ≠ 0) from by simp)]
  · -- 32-byte padded body
    have hbne : body.length ≠ 0 := by omega
    have hb0f : (body.length = 0) = False := by simp [hbne]
    set s := (id.length ||| ((iv.getD 11 0 &&& 0xf) <<< 4)) % 256 with hs
    set tS := (0x80 ||| fType) % 256 with ht
    set fl_ := 3 + id.length + 32 + 23 with hfl
    set hdrBytes := [fl_, tS, s] ++ id ++ [32] with hhb
    set padded := body ++ (List.replicate (31 - body.length) 0 ++ [31 - body.length])
      with hpad
    have hpadlen : padded.length = 32 := by
      simp [hpad]
      omega
    obtain ⟨⟨ct1, tag1⟩, he1, htagl, hctf⟩ := henc hdrBytes (some padded)
    have hctl : (ct1, tag1).1.length = 32 := hctf padded rfl hpadlen
    have hE : encodeRaw .init fType 64 (some body) body.length (some id) id.length iv e
        (some key) =
        ({ fl := fl_, fType := tS, seqIl := s,
           id := if 0 < id.length then id else SecurableFrameHeader.init.id, bl := 32 },
         hdrBytes ++ (ct1 ++ ((iv.drop 6).take 6 ++ (tag1 ++ [0x80]))), fl_ + 1) := by
      unfold encodeRaw pad32BBuffer
      dsimp only
      rw [if_neg (show ¬ ENC_BODY_SMALL_FIXED_PTEXT_MAX_SIZE < body.length from by
        unfold ENC_BODY_SMALL_FIXED_PTEXT_MAX_SIZE; omega)]
      simp only [hb0f, if_false, ne_eq, not_false_iff, if_true, true_and]
      rw [encodeHeader_sec_eq .init 64 fType (iv.getD 11 0 &&& 0xf) id
        ENC_BODY_SMALL_FIXED_CTEXT_SIZE 23 hft0 hft1 hil
        (by omega)
        (by unfold ENC_BODY_SMALL_FIXED_CTEXT_SIZE; omega)
        (by omega)
        (by unfold ENC_BODY_SMALL_FIXED_CTEXT_SIZE; have := hil5 hbpos; omega)]
      dsimp only
      rw [if_neg (by omega),
        if_neg (by unfold ENC_BODY_SMALL_FIXED_CTEXT_SIZE; have := hil5 hbpos; omega)]
      simp only [List.take_length,
        show ENC_BODY_SMALL_FIXED_CTEXT_SIZE - 1 - body.length = 31 - body.length from by
          unfold ENC_BODY_SMALL_FIXED_CTEXT_SIZE; omega,
        show ENC_BODY_SMALL_FIXED_CTEXT_SIZE = 32 from rfl, List.append_assoc]
      rw [← hfl, ← ht, ← hs]
      have hhb2 : hdrBytes = [fl_, tS, s] ++ (id ++ [32]) := by
        rw [hhb]; simp [List.append_assoc]
      rw [← hhb2, ← hpad]
      rw [if_neg (show ¬ ENC_BODY_SMALL_FIXED_PTEXT_MAX_SIZE < body.length from by
        unfold ENC_BODY_SMALL_FIXED_PTEXT_MAX_SIZE; omega)]
      dsimp only
      rw [if_neg (show ¬ (32 : Nat) = 0 from by omega)]
      rw [he1]
      dsimp only
      simp [hhb, List.append_assoc]
    rw [hE]
    dsimp only
    set R := ct1 ++ ((iv.drop 6).take 6 ++ (tag1 ++ [0x80])) with hR
    have hRlen : R.length = 55 := by
      simp [hR, hctl, htagl, List.length_take, List.length_drop, hiv]
    have hframe : hdrBytes ++ R = fl_ :: tS :: s :: (id ++ 32 :: R) := by
      simp [hhb, List.append_assoc]
    have hflen : (fl_ :: tS :: s :: (id ++ 32 :: R)).length = fl_ + 1 := by
      simp [hRlen, hfl]
      omega
    have hlastread : (fl_ :: tS :: s :: (id ++ 32 :: R)).getD fl_ 0 = 0x80 := by
      rw [← hframe]
      rw [show hdrBytes ++ R =
          (hdrBytes ++ (ct1 ++ (iv.drop 6).take 6 ++ tag1)) ++ 0x80 :: [] from by
        simp [hR, hhb, List.append_assoc]]
      exact getD_at_len _ _ _ _ (by
        simp [hhb, hctl, htagl, List.length_take, List.length_drop, hiv]
        omega)
    have hdec2 := decodeHeader_eq .init fl_ tS s id 32 R (fl_ + 1)
      (by rw [hs]; exact hsbits.1)
      (by omega) (by omega)
      (by have := hil5 hbpos; omega)
      (by rw [ht]; rw [htbits.1]; exact hft0)
      (by rw [ht]; rw [htbits.1]; exact hft1)
      hil (by have := hil5 hbpos; omega) (by omega) (by omega)
      (fun _ => by rw [hlastread]; omega)
      (by constructor
          · intro habs
            exact absurd habs htbits.2
          · intro _; omega)
    rw [hframe]
    rw [hflen]
    simp only [hb0f, if_false]
    refine ⟨_, trivial, trivial, hdec2, rfl, ?_, ?_, ?_, ?_, rfl, ?_⟩
    · show tS &&& 0x7f = fType
      rw [ht]; exact htbits.1
    · show (s >>> 4) &&& 0xf = iv.getD 11 0 &&& 0xf
      rw [hs]; exact hsbits.2
    · show s &&& 0xf = id.length
      rw [hs]; exact hsbits.1
    · show (if 0 < id.length then id else SecurableFrameHeader.init.id).take (s &&& 0xf) = id
      rw [hs, hsbits.1]
      have := hil5 hbpos
      rcases Nat.eq_zero_or_pos id.length with h0 | h0
      · rw [if_neg (by omega), List.eq_nil_of_length_eq_zero h0]
        simp
      · rw [if_pos h0, List.take_length id]
    · -- decodeRaw decrypts and unpads back to the original body
      unfold decodeRaw
      dsimp only
      rw [show (fl_ :: tS :: s :: (id ++ 32 :: R)).getD 0 0 = fl_ from rfl]
      rw [show (fl_ + 1) % 256 = fl_ + 1 from Nat.mod_eq_of_lt (by omega)]
      rw [if_neg (show ¬ SecurableFrameHeader.isInvalid { fl := fl_, fType := tS, seqIl := s, id := if 0 < id.length then id else SecurableFrameHeader.init.id, bl := 32 } from show ¬ fl_ = 0 from by omega)]
      rw [if_neg (show ¬ fl_ + 1 ≤ fl_ from by omega)]
      rw [if_neg (show ¬ _ ≠ 23 from by
        rw [getTl_eq _ (by dsimp only [SecurableFrameHeader.getIl]; rw [hsbits.1]; omega)
          (by dsimp only; omega)]
        dsimp only [SecurableFrameHeader.getIl]
        rw [hsbits.1]
        omega)]
      rw [if_neg (show ¬ _ ≠ 0x80 from by rw [hlastread]; omega)]
      rw [if_neg (show ¬ ((32 : Nat) ≠ 0 ∧ (32 : Nat) ≠ ENC_BODY_SMALL_FIXED_CTEXT_SIZE)
        from by simp [ENC_BODY_SMALL_FIXED_CTEXT_SIZE])]
      rw [if_neg (show ¬ _ ≠ _ from by
        dsimp only [SecurableFrameHeader.getSeq]
        rw [hsbits.2]
        exact fun hne => hne rfl)]
      have hauthtext : (fl_ :: tS :: s :: (id ++ 32 :: R)).take
          (SecurableFrameHeader.getHl { fl := fl_, fType := tS, seqIl := s, id := if 0 < id.length then id else SecurableFrameHeader.init.id, bl := 32 })
          = hdrBytes := by
        rw [← hframe]
        dsimp only [SecurableFrameHeader.getHl, SecurableFrameHeader.getIl]
        rw [hsbits.1]
        exact List.take_left' (by simp [hhb]; omega)
      have hctread : ((fl_ :: tS :: s :: (id ++ 32 :: R)).drop
          (SecurableFrameHeader.getBodyOffset { fl := fl_, fType := tS, seqIl := s, id := if 0 < id.length then id else SecurableFrameHeader.init.id, bl := 32 })).take ENC_BODY_SMALL_FIXED_CTEXT_SIZE = ct1 := by
        rw [← hframe]
        dsimp only [SecurableFrameHeader.getBodyOffset, SecurableFrameHeader.getHl,
          SecurableFrameHeader.getIl]
        rw [hsbits.1, hR]
        exact seg_extract _ _ _ _ _ (by simp [hhb]; omega) (by
          rw [hctl]; rfl)
      have htagread : ((fl_ :: tS :: s :: (id ++ 32 :: R)).drop (fl_ - 16)).take 16
          = tag1 := by
        rw [← hframe]
        rw [show hdrBytes ++ R =
            (hdrBytes ++ (ct1 ++ (iv.drop 6).take 6)) ++ (tag1 ++ [0x80]) from by
          simp [hR, hhb, List.append_assoc]]
        exact seg_extract _ _ _ _ _ (by
          simp [hhb, hctl, List.length_take, List.length_drop, hiv]
          omega) htagl
      rw [if_neg (show ¬ (32 : Nat) = 0 from by omega)]
      rw [hauthtext, hctread, htagread]
      rw [hdecinv hdrBytes padded ct1 tag1 hpadlen he1]
      dsimp only
      rw [if_pos (show (true = true) ∧ (32 : Nat) ≠ 0 from by
        constructor
        · rfl
        · omega)]
      have hpadread : padded.getD (ENC_BODY_SMALL_FIXED_CTEXT_SIZE - 1) 0 =
          31 - body.length := by
        rw [show ENC_BODY_SMALL_FIXED_CTEXT_SIZE - 1 = 31 from rfl]
        rw [hpad, show body ++ (List.replicate (31 - body.length) 0 ++ [31 - body.length]) =
            (body ++ List.replicate (31 - body.length) 0) ++
              (31 - body.length) :: [] from by simp [List.append_assoc]]
        exact getD_at_len _ _ _ _ (by simp; omega)
      unfold unpad32BBuffer
      dsimp only
      rw [hpadread]
      rw [if_neg (show ¬ (31 : Nat) < 31 - body.length from by omega)]
      rw [show ENC_BODY_SMALL_FIXED_CTEXT_SIZE - 1 - (31 - body.length) = body.length from by
        unfold ENC_BODY_SMALL_FIXED_CTEXT_SIZE; omega]
      rw [if_neg (show ¬ ENC_BODY_SMALL_FIXED_PTEXT_MAX_SIZE < body.length from by
        unfold ENC_BODY_SMALL_FIXED_PTEXT_MAX_SIZE; omega)]
      rw [if_neg (show ¬ (31 : Nat) < body.length from by omega)]
      rw [hpad]
      rw [List.take_left' rfl]

/-- Concrete 12-byte IV (6-byte ID prefix `01..06`, 6-byte counter) used
to exercise the secure path on concrete inputs; `wIV[11] & 0xF = 9`. -/
def wIV : List Nat := [1, 2, 3, 4, 5, 6, 0, 0, 42, 0, 3, 25]

/-- Concrete 16-byte all-zeros AES key for the NULL encryption pair. -/
def wKey : List Nat := List.replicate 16 0

/-- A concrete no-body secure frame: `fl` 26, type `0x21 | 0x80`,
seq/il byte 0, body length byte 0, then a 22-byte trailer of zero
counter/tag bytes and the `0x80` trailer byte. -/
def nbFrame : List Nat := [26, 0xa1, 0, 0] ++ List.replicate 22 0 ++ [0x80]

/-! ## Theorems -/

/-- C10: the result of `unpad32BBuffer` is fully determined by the final
(32nd) byte `b` of the buffer: `31 - b` whenever `b ≤ 31` (with the
padding bytes never inspected, so two buffers agreeing on the final byte
unpad identically), `0` for `b > 31`; in particular a validly padded
zero-length body (final byte 31) returns 0, the same value as the error
case. -/
theorem C10_unpad_final_byte (buf : List Nat) (hlen : buf.length = 32) :
    (buf.getD 31 0 ≤ 31 → unpad32BBuffer buf = 31 - buf.getD 31 0) ∧
    (31 < buf.getD 31 0 → unpad32BBuffer buf = 0) ∧
    (buf.getD 31 0 = 31 → unpad32BBuffer buf = 0) ∧
    (∀ buf2 : List Nat, buf2.getD 31 0 = buf.getD 31 0 →
      unpad32BBuffer buf2 = unpad32BBuffer buf) := by
  have e : ∀ l : List Nat, unpad32BBuffer l =
      if 31 < l.getD 31 0 then 0 else 31 - l.getD 31 0 := fun l => rfl
  refine ⟨?_, ?_, ?_, ?_⟩
  · intro hb; rw [e, if_neg (by omega)]
  · intro hb; rw [e, if_pos hb]
  · intro hb; rw [e, hb]; rfl
  · intro buf2 hb2; rw [e, e, hb2]

/-- Witness for C10 at the all-zero 32-byte buffer. -/
theorem C10_unpad_final_byte_witness :
    unpad32BBuffer (List.replicate 32 0) = 31 - (List.replicate 32 (0 : Nat)).getD 31 0 :=
  (C10_unpad_final_byte (List.replicate 32 0) (by decide)).1 (by decide)

/-- C6: the concrete header bytes `08 4f 02 80 81 02` decode successfully
to `fl = 8`, `idLength = 2`, `id = [0x80, 0x81]`, `bodyLength = 2`, with
body offset 6 and trailer offset 8, and the 1-byte CRC trailer computed
for body `[0x00, 0x01]` under that header is 0x23. -/
theorem C6_concrete_vector :
    decodeHeader .init [0x08, 0x4f, 0x02, 0x80, 0x81, 0x02] 6 =
      (⟨8, 0x4f, 0x02, [0x80, 0x81], 2⟩, 6) ∧
    (⟨8, 0x4f, 0x02, [0x80, 0x81], 2⟩ : SecurableFrameHeader).getIl = 2 ∧
    (⟨8, 0x4f, 0x02, [0x80, 0x81], 2⟩ : SecurableFrameHeader).getBodyOffset = 6 ∧
    (⟨8, 0x4f, 0x02, [0x80, 0x81], 2⟩ : SecurableFrameHeader).getTrailerOffset = 8 ∧
    computeNonSecureCRC ⟨8, 0x4f, 0x02, [0x80, 0x81], 2⟩
      [0x08, 0x4f, 0x02, 0x80, 0x81, 0x02, 0x00, 0x01] 8 = 0x23 := by
  decide

/-- C3 (code bug): `msgcounteradd` refuses an all-0xFF overflow exactly
as specified, but its carry-ripple loop (`--i > 0`) never reaches byte 0,
so on `[00 ff ff ff ff ff] + 1` it reports success while producing the
all-zero counter instead of `[01 00 00 00 00 00]`: the new big-endian
value is not the old value plus the delta. -/
theorem C3_msgcounteradd_lost_carry :
    msgcounteradd [0xff, 0xff, 0xff, 0xff, 0xff, 0xff] 1 =
      (false, [0xff, 0xff, 0xff, 0xff, 0xff, 0xff]) ∧
    msgcounteradd [0x00, 0xff, 0xff, 0xff, 0xff, 0xff] 1 =
      (true, [0x00, 0x00, 0x00, 0x00, 0x00, 0x00]) ∧
    counterValue [0x00, 0x00, 0x00, 0x00, 0x00, 0x00] ≠
      counterValue [0x00, 0xff, 0xff, 0xff, 0xff, 0xff] + 1 := by
  decide

/-- C5 counterexample: on the defining spec example (non-secure, 2-byte
ID, 2-byte body, 1-byte trailer) `encodeHeader` succeeds and sets
`frameLength = 8`, but the claim's formula
`(3 + idLen) + bodyLen + trailerLen - 1` gives 7. -/
theorem C5_formula_counterexample :
    (encodeHeader .init 63 false FTS_BasicSensorOrValve 0 (some [0x80, 0x81]) 2 2 1).1.fl = 8 ∧
    (3 + 2) + 2 + 1 - 1 ≠ 8 := by
  decide

/-- C5 (amended): when `encodeHeader` succeeds (all Quick Integrity
Checks pass), it computes `frameLength = (3 + idLen) + bodyLen +
trailerLen` (without the claim's spurious `- 1`), writes
`[frameLength, type byte with secure bit, seq/idLen byte, the idLen ID
bytes, bodyLen]` to the destination in that order, sets the header's
`frameLength` field to that value, and returns the header length
including the leading length byte, `4 + idLen`. -/
theorem C5_encodeHeader_success (h0 : SecurableFrameHeader) (buflen : Nat)
    (secure_ : Bool) (fType_ seqNum_ : Nat) (id : List Nat) (bl_ tl_ : Nat)
    (hft0 : fType_ ≠ FTS_NONE) (hft1 : fType_ < FTS_INVALID_HIGH)
    (hil : id.length ≤ maxIDLength) (hbuf : 4 + id.length ≤ buflen)
    (hbl : bl_ ≤ maxSmallFrameSize - (4 + id.length))
    (htl : if secure_ then
        1 ≤ tl_ ∧ tl_ ≤ maxSmallFrameSize + 1 - (4 + id.length) - bl_
      else tl_ = 1) :
    encodeHeader h0 buflen secure_ fType_ seqNum_ (some id) id.length bl_ tl_ =
      ({ fl := (3 + id.length) + bl_ + tl_,
         fType := if secure_ then (0x80 ||| fType_) % 256 else 0x7f &&& fType_,
         seqIl := (id.length ||| (seqNum_ <<< 4)) % 256,
         id := if 0 < id.length then id else h0.id, bl := bl_ },
       [(3 + id.length) + bl_ + tl_,
        if secure_ then (0x80 ||| fType_) % 256 else 0x7f &&& fType_,
        (id.length ||| (seqNum_ <<< 4)) % 256] ++ id ++ [bl_],
       4 + id.length) := by
  simp only [FTS_NONE, FTS_INVALID_HIGH, maxIDLength, maxSmallFrameSize] at *
  cases secure_ with
  | false =>
    simp only [if_false, Bool.false_eq_true] at htl ⊢
    subst htl
    exact encodeHeader_nonsec_eq h0 buflen fType_ seqNum_ id bl_ hft0 hft1 hil hbuf hbl
  | true =>
    simp only [if_true] at htl ⊢
    exact encodeHeader_sec_eq h0 buflen fType_ seqNum_ id bl_ tl_ hft0 hft1 hil hbuf hbl
      htl.1 (by omega)

/-- Witness for C5 (amended) at the defining spec example. -/
theorem C5_encodeHeader_success_witness :
    encodeHeader .init 63 false FTS_BasicSensorOrValve 0 (some [0x80, 0x81]) 2 2 1 =
      ({ fl := (3 + 2) + 2 + 1, fType := 0x7f &&& FTS_BasicSensorOrValve,
         seqIl := (2 ||| (0 <<< 4)) % 256, id := [0x80, 0x81], bl := 2 },
       [(3 + 2) + 2 + 1, 0x7f &&& FTS_BasicSensorOrValve, (2 ||| (0 <<< 4)) % 256]
         ++ [0x80, 0x81] ++ [2], 6) := by
  have h := C5_encodeHeader_success .init 63 false FTS_BasicSensorOrValve 0 [0x80, 0x81] 2 1
    (by decide) (by decide) (by decide) (by decide) (by decide) (by decide)
  simpa using h

set_option maxHeartbeats 2000000 in
/-- C8: the header validity invariant.  A `SecurableFrameHeader` is
constructed invalid (`fl = 0`); both `encodeHeader` and `decodeHeader`
leave `fl = 0` on every failure path (returning 0) and set it non-zero
only on success (as the last action), so a non-zero `fl` certifies that
all the Quick Integrity Checks passed (spelled out here for each
direction, over the inputs respectively the decoded bytes). -/
theorem C8_header_validity (h0 : SecurableFrameHeader) (buflen : Nat) (secure_ : Bool)
    (fT sq : Nat) (id_ : Option (List Nat)) (il bl tl : Nat)
    (buf : List Nat) (buflen2 : Nat) :
    SecurableFrameHeader.init.isInvalid ∧
    (let r := encodeHeader h0 buflen secure_ fT sq id_ il bl tl
     (r.2.2 = 0 → r.1.fl = 0) ∧
     (r.1.fl ≠ 0 →
       r.2.2 = 4 + il ∧ r.1.fl = 3 + il + bl + tl ∧
       fT ≠ FTS_NONE ∧ fT < FTS_INVALID_HIGH ∧ il ≤ maxIDLength ∧
       4 + il ≤ buflen ∧ bl ≤ maxSmallFrameSize - (4 + il) ∧
       (secure_ = false → tl = 1) ∧
       (secure_ = true → 1 ≤ tl ∧ tl ≤ maxSmallFrameSize + 1 - (4 + il) - bl))) ∧
    (let r := decodeHeader h0 buf buflen2
     let fl_ := buf.getD 0 0
     let t := buf.getD 1 0
     let il_ := buf.getD 2 0 &&& 0xf
     let bl_ := buf.getD (4 + il_ - 1) 0
     (r.2 = 0 → r.1.fl = 0) ∧
     (r.1.fl ≠ 0 →
       r.2 = 4 + il_ ∧ r.1.fl = fl_ ∧ 5 ≤ buflen2 ∧
       4 ≤ fl_ ∧ fl_ ≤ maxSmallFrameSize ∧
       t &&& 0x7f ≠ FTS_NONE ∧ t &&& 0x7f < FTS_INVALID_HIGH ∧
       il_ ≤ maxIDLength ∧ il_ ≤ fl_ - 4 ∧
       4 + il_ ≤ buflen2 ∧ bl_ ≤ fl_ - (4 + il_) ∧
       (fl_ < buflen2 → buf.getD fl_ 0 ≠ 0x00 ∧ buf.getD fl_ 0 ≠ 0xff) ∧
       (0x80 &&& t = 0 → fl_ - 3 - il_ - bl_ = 1) ∧
       (0x80 &&& t ≠ 0 → fl_ - 3 - il_ - bl_ ≠ 0))) := by
  refine ⟨by decide, ?_, ?_⟩
  · cases secure_ with
    | false =>
      unfold encodeHeader
      simp only [FTS_NONE, FTS_INVALID_HIGH, maxIDLength, maxSmallFrameSize,
        Bool.false_eq_true, if_false, not_false_iff, true_and, false_and, false_or,
        not_true, and_false, or_false]
      split_ifs <;>
        first
        | exact ⟨fun _ => rfl, fun hfl => absurd rfl hfl⟩
        | {refine ⟨fun habs => absurd habs (show 4 + il ≠ 0 by omega), fun _ => ?_⟩
           refine ⟨rfl, show 4 + il - 1 + bl + tl = 3 + il + bl + tl by omega,
             by omega, by omega, by omega, by omega, by omega,
             fun _ => by omega, fun hx => by simp at hx⟩}
    | true =>
      unfold encodeHeader
      simp only [FTS_NONE, FTS_INVALID_HIGH, maxIDLength, maxSmallFrameSize,
        Bool.true_eq_false, if_true, not_true, false_and, true_and, false_or, or_false]
      split_ifs <;>
        first
        | exact ⟨fun _ => rfl, fun hfl => absurd rfl hfl⟩
        | {refine ⟨fun habs => absurd habs (show 4 + il ≠ 0 by omega), fun _ => ?_⟩
           refine ⟨rfl, show 4 + il - 1 + bl + tl = 3 + il + bl + tl by omega,
             by omega, by omega, by omega, by omega, by omega,
             fun hx => by simp at hx, fun _ => by omega⟩}
  · unfold decodeHeader
    dsimp only [FTS_NONE, FTS_INVALID_HIGH, maxIDLength, maxSmallFrameSize,
      SecurableFrameHeader.getIl, SecurableFrameHeader.isSecure]
    by_cases h1 : buflen2 < 5
    · simp only [if_pos h1]
      first
      | exact ⟨trivial, fun hfl => absurd rfl hfl⟩
      | exact ⟨fun _ => rfl, fun hfl => absurd rfl hfl⟩
      | simp
    · simp only [if_neg h1]
      by_cases h2 : buf.getD 0 0 < 4
      · simp only [if_pos h2]
        first
        | exact ⟨trivial, fun hfl => absurd rfl hfl⟩
        | exact ⟨fun _ => rfl, fun hfl => absurd rfl hfl⟩
        | simp
      · simp only [if_neg h2]
        by_cases h3 : 63 < buf.getD 0 0
        · simp only [if_pos h3]
          first
          | exact ⟨trivial, fun hfl => absurd rfl hfl⟩
          | exact ⟨fun _ => rfl, fun hfl => absurd rfl hfl⟩
          | simp
        · simp only [if_neg h3]
          by_cases h4 : buf.getD 1 0 &&& 127 = 0 ∨ 127 ≤ buf.getD 1 0 &&& 127
          · simp only [if_pos h4]
            first
            | exact ⟨trivial, fun hfl => absurd rfl hfl⟩
            | exact ⟨fun _ => rfl, fun hfl => absurd rfl hfl⟩
            | simp
          · simp only [if_neg h4]
            by_cases h5 : 8 < buf.getD 2 0 &&& 15
            · simp only [if_pos h5]
              first
              | exact ⟨trivial, fun hfl => absurd rfl hfl⟩
              | exact ⟨fun _ => rfl, fun hfl => absurd rfl hfl⟩
              | simp
            · simp only [if_neg h5]
              by_cases h6 : buf.getD 0 0 - 4 < buf.getD 2 0 &&& 15
              · simp only [if_pos h6]
                first
                | exact ⟨trivial, fun hfl => absurd rfl hfl⟩
                | exact ⟨fun _ => rfl, fun hfl => absurd rfl hfl⟩
                | simp
              · simp only [if_neg h6]
                by_cases h7 : buflen2 < 4 + (buf.getD 2 0 &&& 15)
                · simp only [if_pos h7]
                  first
                  | exact ⟨trivial, fun hfl => absurd rfl hfl⟩
                  | exact ⟨fun _ => rfl, fun hfl => absurd rfl hfl⟩
                  | simp
                · simp only [if_neg h7]
                  by_cases h8 : buf.getD 0 0 - (4 + (buf.getD 2 0 &&& 15)) < buf.getD (4 + (buf.getD 2 0 &&& 15) - 1) 0
                  · simp only [if_pos h8]
                    first
                    | exact ⟨trivial, fun hfl => absurd rfl hfl⟩
                    | exact ⟨fun _ => rfl, fun hfl => absurd rfl hfl⟩
                    | simp
                  · simp only [if_neg h8]
                    by_cases h9 : buf.getD 0 0 < buflen2 ∧ (buf.getD (buf.getD 0 0) 0 = 0 ∨ buf.getD (buf.getD 0 0) 0 = 255)
                    · simp only [if_pos h9]
                      first
                      | exact ⟨trivial, fun hfl => absurd rfl hfl⟩
                      | exact ⟨fun _ => rfl, fun hfl => absurd rfl hfl⟩
                      | simp
                    · simp only [if_neg h9]
                      by_cases h10 : ¬128 &&& buf.getD 1 0 ≠ 0 ∧ buf.getD 0 0 - 3 - (buf.getD 2 0 &&& 15) - buf.getD (4 + (buf.getD 2 0 &&& 15) - 1) 0 ≠ 1 ∨ 128 &&& buf.getD 1 0 ≠ 0 ∧ buf.getD 0 0 - 3 - (buf.getD 2 0 &&& 15) - buf.getD (4 + (buf.getD 2 0 &&& 15) - 1) 0 = 0
                      · simp only [if_pos h10]
                        first
                        | exact ⟨trivial, fun hfl => absurd rfl hfl⟩
                        | exact ⟨fun _ => rfl, fun hfl => absurd rfl hfl⟩
                        | simp
                      · simp only [if_neg h10]
                        refine ⟨fun habs => absurd habs (show 4 + (buf.getD 2 0 &&& 15) ≠ 0 by omega),
                          fun _ => ?_⟩
                        refine ⟨by first | exact rfl | trivial, by first | exact rfl | trivial,
                      by omega, by omega, by omega, by omega, by omega,
                          by omega, by omega, by omega, by omega, fun hsm => by omega,
                          fun hns => by omega, fun hsec => by omega⟩

/-- C9 (code bug): the secure-frame `encode()` wrapper returns 255 — not
the documented failure sentinel 0, and not a genuine count of bytes
written (none are) — when an ID of more than 6 bytes is requested and
the TX ID provider (`getTXID`) fails. -/
theorem C9_encode_returns_255 :
    encode .init 0x4f 64 none 0 7 fixed32BTextSize12BNonce16BTagSimpleEnc_NULL_IMPL
      (some (List.replicate 16 0)) (some (List.replicate 12 0)) none =
      (.init, [], 255) ∧ (255 : Nat) ≠ 0 := by
  decide


/-- C1: the encode-then-decode roundtrip.  For every valid input tuple
(frame type neither `FTS_NONE` nor ≥ `FTS_INVALID_HIGH`, ID of length
0–8 — 0–5 on the secure path with a body —, body of length 0–31, key and
12-byte IV, and a matching encrypt/decrypt pair), encoding and then
decoding the produced bytes succeeds and returns the same frame type,
sequence number, ID and body: on the non-secure path via
`encodeNonsecure` / `decodeHeader` + `decodeNonsecure`, and on the
secure path via `encodeRaw` / `decodeHeader` + `decodeRaw`. -/
theorem C1_roundtrip (fType seqNum : Nat) (id body iv key : List Nat)
    (e : EncFn) (d : DecFn)
    (hft0 : fType ≠ 0) (hft1 : fType < 0x7f) (hseq : seqNum < 16)
    (hil : id.length ≤ 8) (hbl : body.length ≤ 31)
    (hil5 : 0 < body.length → id.length ≤ 5)
    (hiv : iv.length = 12)
    (henc : ∀ authtext pt, ∃ r, e key iv authtext pt = some r ∧ r.2.length = 16 ∧
      (∀ p, pt = some p → p.length = 32 → r.1.length = 32))
    (hdecinv : ∀ authtext pt ct tag, pt.length = 32 →
      e key iv authtext (some pt) = some (ct, tag) →
      d key iv authtext (some ct) tag = some pt)
    (hdec0 : ∀ authtext ct tag, e key iv authtext none = some (ct, tag) →
      ∃ p, d key iv authtext none tag = some p) :
    (∃ h2 : SecurableFrameHeader,
      decodeHeader .init (encodeNonsecure .init 64 body fType seqNum (some id) id.length).2.1
          (encodeNonsecure .init 64 body fType seqNum (some id) id.length).2.1.length =
        (h2, 4 + id.length) ∧
      (encodeNonsecure .init 64 body fType seqNum (some id) id.length).2.2 =
        (encodeNonsecure .init 64 body fType seqNum (some id) id.length).1.fl + 1 ∧
      (encodeNonsecure .init 64 body fType seqNum (some id) id.length).1.fl =
        3 + id.length + body.length + 1 ∧
      h2.fl = 3 + id.length + body.length + 1 ∧
      h2.fType &&& 0x7f = fType ∧
      h2.getSeq = seqNum ∧ h2.getIl = id.length ∧
      h2.id.take h2.getIl = id ∧ h2.bl = body.length ∧
      ((encodeNonsecure .init 64 body fType seqNum (some id) id.length).2.1.drop
          h2.getBodyOffset).take h2.bl = body ∧
      decodeNonsecure h2
        (some (encodeNonsecure .init 64 body fType seqNum (some id) id.length).2.1)
        (encodeNonsecure .init 64 body fType seqNum (some id) id.length).2.1.length =
        3 + id.length + body.length + 1 + 1) ∧
    (∃ h2 : SecurableFrameHeader,
      (encodeRaw .init fType 64 (some body) body.length (some id) id.length iv e
          (some key)).2.2 =
        (encodeRaw .init fType 64 (some body) body.length (some id) id.length iv e
          (some key)).1.fl + 1 ∧
      (encodeRaw .init fType 64 (some body) body.length (some id) id.length iv e
          (some key)).1.fl =
        3 + id.length + (if body.length = 0 then 0 else 32) + 23 ∧
      decodeHeader .init
          (encodeRaw .init fType 64 (some body) body.length (some id) id.length iv e
            (some key)).2.1
          (encodeRaw .init fType 64 (some body) body.length (some id) id.length iv e
            (some key)).2.1.length =
        (h2, 4 + id.length) ∧
      h2.fl = 3 + id.length + (if body.length = 0 then 0 else 32) + 23 ∧
      h2.fType &&& 0x7f = fType ∧
      h2.getSeq = iv.getD 11 0 &&& 0xf ∧
      h2.getIl = id.length ∧
      h2.id.take h2.getIl = id ∧
      h2.bl = (if body.length = 0 then 0 else 32) ∧
      decodeRaw h2
          (some (encodeRaw .init fType 64 (some body) body.length (some id) id.length iv e
            (some key)).2.1)
          true 31 d (some key) (some iv) =
        ⟨(3 + id.length + (if body.length = 0 then 0 else 32) + 23) + 1,
          body.length, body⟩) :=
  ⟨nonsec_roundtrip fType seqNum id body hft0 hft1 hseq hil hbl,
   sec_roundtrip fType id body iv key e d hft0 hft1 hil hbl hil5 hiv henc hdecinv hdec0⟩

/-- Witness: the C1 roundtrip at frame type 8, sequence number 0,
ID `80 81`, body `01 02 03`, the all-zeros key, the concrete IV `wIV`
and the NULL encryption/decryption pair. -/
theorem C1_roundtrip_witness :
    (∃ h2 : SecurableFrameHeader,
      decodeHeader .init (encodeNonsecure .init 64 [1, 2, 3] 8 0 (some [0x80, 0x81]) 2).2.1
          (encodeNonsecure .init 64 [1, 2, 3] 8 0 (some [0x80, 0x81]) 2).2.1.length =
        (h2, 6) ∧
      (encodeNonsecure .init 64 [1, 2, 3] 8 0 (some [0x80, 0x81]) 2).2.2 =
        (encodeNonsecure .init 64 [1, 2, 3] 8 0 (some [0x80, 0x81]) 2).1.fl + 1 ∧
      (encodeNonsecure .init 64 [1, 2, 3] 8 0 (some [0x80, 0x81]) 2).1.fl = 9 ∧
      h2.fl = 9 ∧
      h2.fType &&& 0x7f = 8 ∧
      h2.getSeq = 0 ∧ h2.getIl = 2 ∧
      h2.id.take h2.getIl = [0x80, 0x81] ∧ h2.bl = 3 ∧
      ((encodeNonsecure .init 64 [1, 2, 3] 8 0 (some [0x80, 0x81]) 2).2.1.drop
          h2.getBodyOffset).take h2.bl = [1, 2, 3] ∧
      decodeNonsecure h2
        (some (encodeNonsecure .init 64 [1, 2, 3] 8 0 (some [0x80, 0x81]) 2).2.1)
        (encodeNonsecure .init 64 [1, 2, 3] 8 0 (some [0x80, 0x81]) 2).2.1.length = 10) ∧
    (∃ h2 : SecurableFrameHeader,
      (encodeRaw .init 8 64 (some [1, 2, 3]) 3 (some [0x80, 0x81]) 2 wIV
          fixed32BTextSize12BNonce16BTagSimpleEnc_NULL_IMPL (some wKey)).2.2 =
        (encodeRaw .init 8 64 (some [1, 2, 3]) 3 (some [0x80, 0x81]) 2 wIV
          fixed32BTextSize12BNonce16BTagSimpleEnc_NULL_IMPL (some wKey)).1.fl + 1 ∧
      (encodeRaw .init 8 64 (some [1, 2, 3]) 3 (some [0x80, 0x81]) 2 wIV
          fixed32BTextSize12BNonce16BTagSimpleEnc_NULL_IMPL (some wKey)).1.fl = 60 ∧
      decodeHeader .init
          (encodeRaw .init 8 64 (some [1, 2, 3]) 3 (some [0x80, 0x81]) 2 wIV
            fixed32BTextSize12BNonce16BTagSimpleEnc_NULL_IMPL (some wKey)).2.1
          (encodeRaw .init 8 64 (some [1, 2, 3]) 3 (some [0x80, 0x81]) 2 wIV
            fixed32BTextSize12BNonce16BTagSimpleEnc_NULL_IMPL (some wKey)).2.1.length =
        (h2, 6) ∧
      h2.fl = 60 ∧
      h2.fType &&& 0x7f = 8 ∧
      h2.getSeq = 9 ∧
      h2.getIl = 2 ∧
      h2.id.take h2.getIl = [0x80, 0x81] ∧
      h2.bl = 32 ∧
      decodeRaw h2
          (some (encodeRaw .init 8 64 (some [1, 2, 3]) 3 (some [0x80, 0x81]) 2 wIV
            fixed32BTextSize12BNonce16BTagSimpleEnc_NULL_IMPL (some wKey)).2.1)
          true 31 fixed32BTextSize12BNonce16BTagSimpleDec_NULL_IMPL (some wKey)
          (some wIV) =
        ⟨61, 3, [1, 2, 3]⟩) :=
  C1_roundtrip 8 0 [0x80, 0x81] [1, 2, 3] wIV wKey
    fixed32BTextSize12BNonce16BTagSimpleEnc_NULL_IMPL
    fixed32BTextSize12BNonce16BTagSimpleDec_NULL_IMPL
    (by decide) (by decide) (by decide) (by decide) (by decide)
    (fun _ => by decide) (by decide)
    (fun authtext pt => by
      refine ⟨((match pt with | some p => p.take 32 | none => []),
        wIV.take 12 ++ List.replicate 4 0), rfl, ?_, ?_⟩
      · show (wIV.take 12 ++ List.replicate 4 0).length = 16
        decide
      · intro p hp hl
        subst hp
        simp [List.length_take, hl])
    (fun authtext pt ct tag hlen he => by
      have h := Option.some.inj he
      have hct : ct = pt.take 32 := (congrArg Prod.fst h).symm
      have htag : tag = wIV.take 12 ++ List.replicate 4 0 := (congrArg Prod.snd h).symm
      subst hct
      subst htag
      show fixed32BTextSize12BNonce16BTagSimpleDec_NULL_IMPL wKey wIV authtext
        (some (pt.take 32)) (wIV.take 12 ++ List.replicate 4 0) = some pt
      unfold fixed32BTextSize12BNonce16BTagSimpleDec_NULL_IMPL
      rw [if_neg (by decide)]
      show some ((pt.take 32).take 32) = some pt
      rw [List.take_take, min_self, List.take_of_length_le (by omega)])
    (fun authtext ct tag he => by
      have h := Option.some.inj he
      have htag : tag = wIV.take 12 ++ List.replicate 4 0 := (congrArg Prod.snd h).symm
      subst htag
      refine ⟨[], ?_⟩
      show fixed32BTextSize12BNonce16BTagSimpleDec_NULL_IMPL wKey wIV authtext none
        (wIV.take 12 ++ List.replicate 4 0) = some []
      unfold fixed32BTextSize12BNonce16BTagSimpleDec_NULL_IMPL
      rw [if_neg (by decide)])


/-- C4 counterexample: on a valid no-body frame (`fl` 26), a successful
`decodeRaw` returns `fl + 1 = 27` with plaintext length 0 — not
"exactly 1" as claimed. -/
theorem C4_no_body_counterexample :
    decodeHeader .init nbFrame 27 =
      ({ fl := 26, fType := 0xa1, seqIl := 0, id := [0xff], bl := 0 }, 4) ∧
    decodeRaw { fl := 26, fType := 0xa1, seqIl := 0, id := [0xff], bl := 0 }
        (some nbFrame) true 31 fixed32BTextSize12BNonce16BTagSimpleDec_NULL_IMPL
        (some wKey) (some (List.replicate 12 0)) = ⟨27, 0, []⟩ ∧
    (27 : Nat) ≠ 1 := by decide

/-- C4 (amended): the only `decodeRaw` return values are 0 (on any
argument, check or crypto failure: NULL buffer/key/IV, invalid header,
trailer length ≠ 23, final trailer byte ≠ 0x80, body length neither 0
nor 32, header/IV sequence-number mismatch, decrypt failure) and
`fl + 1`; the return value is never 1, and on a no-body header the
result is either success `⟨fl + 1, 0, []⟩` — plaintext length set
to 0 — or failure `⟨0, 0, []⟩`. -/
theorem C4_decodeRaw_returns (sfh : SecurableFrameHeader) (pp : Bool) (plm : Nat)
    (d : DecFn) (ctext key iv : Option (List Nat)) :
    ((decodeRaw sfh ctext pp plm d key iv).ret = 0 ∨
      (decodeRaw sfh ctext pp plm d key iv).ret = sfh.fl + 1) ∧
    (decodeRaw sfh ctext pp plm d key iv).ret ≠ 1 ∧
    (sfh.bl = 0 →
      decodeRaw sfh ctext pp plm d key iv = ⟨sfh.fl + 1, 0, []⟩ ∨
      decodeRaw sfh ctext pp plm d key iv = ⟨0, 0, []⟩) ∧
    decodeRaw sfh none pp plm d key iv = ⟨0, 0, []⟩ ∧
    decodeRaw sfh ctext pp plm d none iv = ⟨0, 0, []⟩ ∧
    decodeRaw sfh ctext pp plm d key none = ⟨0, 0, []⟩ ∧
    (sfh.isInvalid → (decodeRaw sfh ctext pp plm d key iv).ret = 0) ∧
    (sfh.getTl ≠ 23 → (decodeRaw sfh ctext pp plm d key iv).ret = 0) ∧
    (sfh.bl ≠ 0 ∧ sfh.bl ≠ 32 → (decodeRaw sfh ctext pp plm d key iv).ret = 0) ∧
    (∀ ivb, iv = some ivb → sfh.getSeq ≠ (ivb.getD 11 0 &&& 0xf) →
      (decodeRaw sfh ctext pp plm d key iv).ret = 0) ∧
    (∀ buf, ctext = some buf → buf.getD sfh.fl 0 ≠ 0x80 →
      (decodeRaw sfh ctext pp plm d key iv).ret = 0) := by
  have hshape := decodeRaw_shape sfh pp plm d ctext key iv
  refine ⟨?_, ?_, ?_, rfl, ?_, ?_, ?_, ?_, ?_, ?_, ?_⟩
  · rcases hshape with h | ⟨_, n, l, he, _⟩
    · exact Or.inl (by rw [h])
    · exact Or.inr (by rw [he])
  · rcases hshape with h | ⟨hni, n, l, he, _⟩
    · rw [h]
      decide
    · rw [he]
      have hfl : sfh.fl ≠ 0 := hni
      show sfh.fl + 1 ≠ 1
      omega
  · intro hbl0
    rcases hshape with h | ⟨_, n, l, he, hb⟩
    · exact Or.inr h
    · obtain ⟨hn, hl⟩ := hb hbl0
      subst hn
      subst hl
      exact Or.inl he
  · rcases ctext with _ | buf
    · rfl
    rcases iv with _ | i <;> rfl
  · rcases ctext with _ | buf
    · rfl
    rcases key with _ | k <;> rfl
  · intro hinv
    rcases ctext with _ | buf
    · rfl
    rcases key with _ | k
    · rfl
    rcases iv with _ | i
    · rfl
    unfold decodeRaw
    dsimp only
    rw [if_pos hinv]
  · intro htl
    rcases ctext with _ | buf
    · rfl
    rcases key with _ | k
    · rfl
    rcases iv with _ | i
    · rfl
    unfold decodeRaw
    dsimp only
    by_cases h1 : sfh.isInvalid
    · rw [if_pos h1]
    rw [if_neg h1]
    by_cases h2 : (buf.getD 0 0 + 1) % 256 ≤ sfh.fl
    · rw [if_pos h2]
    rw [if_neg h2, if_pos htl]
  · intro hbl
    rcases ctext with _ | buf
    · rfl
    rcases key with _ | k
    · rfl
    rcases iv with _ | i
    · rfl
    unfold decodeRaw
    dsimp only
    by_cases h1 : sfh.isInvalid
    · rw [if_pos h1]
    rw [if_neg h1]
    by_cases h2 : (buf.getD 0 0 + 1) % 256 ≤ sfh.fl
    · rw [if_pos h2]
    rw [if_neg h2]
    by_cases h3 : sfh.getTl ≠ 23
    · rw [if_pos h3]
    rw [if_neg h3]
    by_cases h4 : buf.getD sfh.fl 0 ≠ 0x80
    · rw [if_pos h4]
    have hbl2 : sfh.bl ≠ 0 ∧ sfh.bl ≠ ENC_BODY_SMALL_FIXED_CTEXT_SIZE := hbl
    rw [if_neg h4, if_pos hbl2]
  · intro ivb hivb hseq
    subst hivb
    rcases ctext with _ | buf
    · rfl
    rcases key with _ | k
    · rfl
    unfold decodeRaw
    dsimp only
    by_cases h1 : sfh.isInvalid
    · rw [if_pos h1]
    rw [if_neg h1]
    by_cases h2 : (buf.getD 0 0 + 1) % 256 ≤ sfh.fl
    · rw [if_pos h2]
    rw [if_neg h2]
    by_cases h3 : sfh.getTl ≠ 23
    · rw [if_pos h3]
    rw [if_neg h3]
    by_cases h4 : buf.getD sfh.fl 0 ≠ 0x80
    · rw [if_pos h4]
    rw [if_neg h4]
    by_cases h5 : sfh.bl ≠ 0 ∧ sfh.bl ≠ ENC_BODY_SMALL_FIXED_CTEXT_SIZE
    · rw [if_pos h5]
    rw [if_neg h5, if_pos hseq]
  · intro buf hbuf hbyte
    subst hbuf
    rcases key with _ | k
    · rfl
    rcases iv with _ | i
    · rfl
    unfold decodeRaw
    dsimp only
    by_cases h1 : sfh.isInvalid
    · rw [if_pos h1]
    rw [if_neg h1]
    by_cases h2 : (buf.getD 0 0 + 1) % 256 ≤ sfh.fl
    · rw [if_pos h2]
    rw [if_neg h2]
    by_cases h3 : sfh.getTl ≠ 23
    · rw [if_pos h3]
    rw [if_neg h3, if_pos hbyte]



/-- C7 counterexample: in the spec's own non-secure example frame,
`3 + idLength = 5` is the offset of the body-length byte, not of the
body; the body `00 01` actually sits at offset `4 + idLength = 6`,
which is what `getBodyOffset` returns. -/
theorem C7_bodyOffset_counterexample :
    (encodeNonsecure .init 64 [0x00, 0x01] 0x4f 0 (some [0x80, 0x81]) 2).2.1 =
      [0x08, 0x4f, 0x02, 0x80, 0x81, 0x02, 0x00, 0x01, 0x23] ∧
    ((encodeNonsecure .init 64 [0x00, 0x01] 0x4f 0 (some [0x80, 0x81]) 2).2.1.drop
        (3 + 2)).take 2 = [0x02, 0x00] ∧
    ([0x02, 0x00] : List Nat) ≠ [0x00, 0x01] ∧
    ((encodeNonsecure .init 64 [0x00, 0x01] 0x4f 0 (some [0x80, 0x81]) 2).2.1.drop
        (4 + 2)).take 2 = [0x00, 0x01] ∧
    (encodeNonsecure .init 64 [0x00, 0x01] 0x4f 0 (some [0x80, 0x81]) 2).1.getBodyOffset =
      4 + 2 := by decide

/-- C7 (amended): for a coherent header (`3 + il + bl ≤ fl ≤ 63`) the
derived offsets satisfy `bodyOffset = 4 + idLength` (not `3 + idLength`:
offset 3 + il is the body-length byte), `trailerLength =
frameLength − 3 − idLength − bodyLength` and `trailerOffset =
bodyOffset + bodyLength`; and in an encoded non-secure frame the body
really is the `bl` bytes from `bodyOffset` and the byte at
`trailerOffset` really is the CRC trailer over everything before it. -/
theorem C7_offsets (h : SecurableFrameHeader) (fType seqNum : Nat) (id body : List Nat)
    (hfl1 : 3 + h.getIl + h.bl ≤ h.fl) (hfl2 : h.fl ≤ 63)
    (hft0 : fType ≠ 0) (hft1 : fType < 0x7f) (hseq : seqNum < 16)
    (hil : id.length ≤ 8) (hbl : body.length ≤ 31) :
    h.getBodyOffset = 4 + h.getIl ∧
    h.getTl = h.fl - 3 - h.getIl - h.bl ∧
    h.getTrailerOffset = h.getBodyOffset + h.bl ∧
    ((encodeNonsecure .init 64 body fType seqNum (some id) id.length).2.1.drop
        (encodeNonsecure .init 64 body fType seqNum (some id) id.length).1.getBodyOffset).take
      (encodeNonsecure .init 64 body fType seqNum (some id) id.length).1.bl = body ∧
    (encodeNonsecure .init 64 body fType seqNum (some id) id.length).2.1.getD
        (encodeNonsecure .init 64 body fType seqNum (some id) id.length).1.getTrailerOffset 0 =
      computeNonSecureCRC (encodeNonsecure .init 64 body fType seqNum (some id) id.length).1
        ((encodeNonsecure .init 64 body fType seqNum (some id) id.length).2.1.take
          (encodeNonsecure .init 64 body fType seqNum (some id) id.length).1.getTrailerOffset)
        64 := by
  have hgetIl : h.getIl ≤ 15 := Nat.and_le_right
  have hsb := seqIl_bits id.length (by omega) seqNum hseq
  refine ⟨rfl, ?_, ?_, ?_, ?_⟩
  · exact getTl_eq h (by omega) (by omega)
  · show (4 + h.getIl + h.bl) % 256 = 4 + h.getIl + h.bl
    exact Nat.mod_eq_of_lt (by omega)
  · rw [encodeNonsecure_eq .init 64 body fType seqNum id hft0 hft1 hil (by omega) (by omega)]
    dsimp only
    dsimp only [SecurableFrameHeader.getBodyOffset, SecurableFrameHeader.getHl,
      SecurableFrameHeader.getIl]
    rw [hsb.1]
    rw [List.append_assoc]
    rw [List.drop_left' (by simp; try omega)]
    rw [List.take_left' rfl]
  · rw [encodeNonsecure_eq .init 64 body fType seqNum id hft0 hft1 hil (by omega) (by omega)]
    dsimp only
    dsimp only [SecurableFrameHeader.getTrailerOffset, SecurableFrameHeader.getHl,
      SecurableFrameHeader.getIl]
    rw [hsb.1]
    rw [Nat.mod_eq_of_lt (show 4 + id.length + body.length < 256 from by omega)]
    rw [List.take_left' (by simp; try omega)]
    rw [getD_at_len _ _ _ _ (by simp; try omega)]

/-- Witness: `C7_offsets` at the spec's example header and frame
(type 0x4f, sequence number 0, ID `80 81`, body `00 01`). -/
theorem C7_offsets_witness :
    (⟨8, 0x4f, 2, [0x80, 0x81], 2⟩ : SecurableFrameHeader).getBodyOffset =
      4 + (⟨8, 0x4f, 2, [0x80, 0x81], 2⟩ : SecurableFrameHeader).getIl ∧
    (⟨8, 0x4f, 2, [0x80, 0x81], 2⟩ : SecurableFrameHeader).getTl =
      8 - 3 - (⟨8, 0x4f, 2, [0x80, 0x81], 2⟩ : SecurableFrameHeader).getIl - 2 ∧
    (⟨8, 0x4f, 2, [0x80, 0x81], 2⟩ : SecurableFrameHeader).getTrailerOffset =
      (⟨8, 0x4f, 2, [0x80, 0x81], 2⟩ : SecurableFrameHeader).getBodyOffset + 2 ∧
    ((encodeNonsecure .init 64 [0x00, 0x01] 0x4f 0 (some [0x80, 0x81]) 2).2.1.drop
        (encodeNonsecure .init 64 [0x00, 0x01] 0x4f 0
          (some [0x80, 0x81]) 2).1.getBodyOffset).take
      (encodeNonsecure .init 64 [0x00, 0x01] 0x4f 0 (some [0x80, 0x81]) 2).1.bl =
        [0x00, 0x01] ∧
    (encodeNonsecure .init 64 [0x00, 0x01] 0x4f 0 (some [0x80, 0x81]) 2).2.1.getD
        (encodeNonsecure .init 64 [0x00, 0x01] 0x4f 0
          (some [0x80, 0x81]) 2).1.getTrailerOffset 0 =
      computeNonSecureCRC
        (encodeNonsecure .init 64 [0x00, 0x01] 0x4f 0 (some [0x80, 0x81]) 2).1
        ((encodeNonsecure .init 64 [0x00, 0x01] 0x4f 0 (some [0x80, 0x81]) 2).2.1.take
          (encodeNonsecure .init 64 [0x00, 0x01] 0x4f 0
            (some [0x80, 0x81]) 2).1.getTrailerOffset)
        64 :=
  C7_offsets ⟨8, 0x4f, 2, [0x80, 0x81], 2⟩ 0x4f 0 [0x80, 0x81] [0x00, 0x01]
    (by decide) (by decide) (by decide) (by decide) (by decide) (by decide) (by decide)



/-- C2: replay protection in the top-level receive entry point
`decode`.  (i) After node resolution, a frame counter that does not
validate as strictly greater than the stored counter makes `decode`
fail identically for every decryption function — the counter is checked
before any decryption; (ii) the association table is unchanged whenever
`decode` returns 0, and on success it is exactly the input table with
the resolved node's counter set to the frame counter; (iii) hence
presenting the byte-identical frame again, against the updated table,
is rejected with return value 0 and no further table change. -/
theorem C2_counter_replay (store : NodeAssocTable) (sfh : SecurableFrameHeader)
    (buf : List Nat) (pp : Bool) (plm : Nat) (d : DecFn) (key : Option (List Nat)) :
    (∀ i nodeID, getNextMatchingNodeID store 0 (sfh.id.take sfh.getIl) = some (i, nodeID) →
      validateRXMsgCtr store nodeID
        ((buf.drop sfh.getTrailerOffset).take fullMsgCtrBytes) = false →
      ∀ dAny : DecFn, decode store sfh (some buf) pp plm dAny key = (⟨0, 0, []⟩, store)) ∧
    ((decode store sfh (some buf) pp plm d key).1.ret = 0 →
      (decode store sfh (some buf) pp plm d key).2 = store) ∧
    ((decode store sfh (some buf) pp plm d key).1.ret ≠ 0 →
      ∃ i nodeID, getNextMatchingNodeID store 0 (sfh.id.take sfh.getIl) = some (i, nodeID) ∧
        validateRXMsgCtr store nodeID
          ((buf.drop sfh.getTrailerOffset).take fullMsgCtrBytes) = true ∧
        (decode store sfh (some buf) pp plm d key).2 =
          setLastRXMsgCtr store nodeID
            ((buf.drop sfh.getTrailerOffset).take fullMsgCtrBytes)) ∧
    ((decode store sfh (some buf) pp plm d key).1.ret ≠ 0 →
      decode ((decode store sfh (some buf) pp plm d key).2) sfh (some buf) pp plm d key =
        (⟨0, 0, []⟩, (decode store sfh (some buf) pp plm d key).2)) := by
  have hshape := decode_cases store sfh buf pp plm d key
  refine ⟨?_, ?_, ?_, ?_⟩
  · intro i0 nid hm hval dAny
    unfold decode
    dsimp only
    by_cases c1 : sfh.isInvalid
    · rw [if_pos c1]
    rw [if_neg c1]
    by_cases c2 : sfh.getTl ≠ 23
    · rw [if_pos c2]
    rw [if_neg c2]
    split
    · rfl
    · rename_i a b heq
      rw [hm] at heq
      have hpair := Option.some.inj heq
      have hb : nid = b := congrArg Prod.snd hpair
      subst hb
      rw [if_pos (by simp [hval])]
  · intro h0
    rcases hshape with h | ⟨_, _, i, nid, cur, hm, hcur, hcmp, hres, heq⟩
    · rw [h]
    · rw [heq] at h0
      exact absurd h0 hres
  · intro hne
    rcases hshape with h | ⟨_, _, i, nid, cur, hm, hcur, hcmp, hres, heq⟩
    · rw [h] at hne
      exact absurd rfl hne
    · refine ⟨i, nid, hm, ?_, ?_⟩
      · unfold validateRXMsgCtr
        rw [hcur]
        exact decide_eq_true hcmp
      · rw [heq]
  · intro hne
    rcases hshape with h | ⟨hni, htl, i, nid, cur, hm, hcur, hcmp, hres, heq⟩
    · rw [h] at hne
      exact absurd rfl hne
    · rw [heq]
      dsimp only
      unfold decode
      dsimp only
      rw [if_neg hni]
      rw [if_neg (show ¬ sfh.getTl ≠ 23 from not_not_intro htl)]
      split
      · rename_i heq2
        rw [getNextMatchingNodeID_set, hm] at heq2
        try cases heq2
      · rename_i a b heq2
        rw [getNextMatchingNodeID_set, hm] at heq2
        have hpair := Option.some.inj heq2
        have hb : nid = b := congrArg Prod.snd hpair
        subst hb
        have hval2 : validateRXMsgCtr
            (setLastRXMsgCtr store nid
              ((buf.drop sfh.getTrailerOffset).take fullMsgCtrBytes)) nid
            ((buf.drop sfh.getTrailerOffset).take fullMsgCtrBytes) = false := by
          unfold validateRXMsgCtr
          rw [getLastRXMsgCtr_set_self store nid cur _ hcur]
          simp [msgcountercmp_self]
        rw [if_pos (by simp [hval2])]


end OTRadioLink
